import Mathlib

/-!
Shallow embedding of the dreamscape turn-processing core
(backend/app/services/world_state.py, backend/app/services/llm_service.py,
backend/app/api/websocket.py, backend/app/schemas/world.py) and proofs of
the specification claims about it.

Conventions of the embedding:
* Python/JSON dynamic values are modelled by the inductive type JVal.
* Python dicts keyed by strings are modelled as insertion-ordered
  association lists with unique keys (dictSet replaces in place, like a
  Python dict assignment).
* Machine floats are modelled as rationals (Rat); no claim under proof
  depends on floating-point rounding.
* Randomness (uuid4) is modelled by an explicit stream of hex strings
  passed in as a parameter.
* Python exceptions that a piece of code can raise and that are not caught
  locally are modelled with Except.
-/

/-- Dynamic JSON-like value, the model of Python dict/list/str/num/bool/None
data as it flows through the tool-call layer. -/
inductive JVal where
  | null : JVal
  | bool (b : Bool) : JVal
  | num (q : Rat) : JVal
  | str (s : String) : JVal
  | arr (elems : List JVal) : JVal
  | obj (fields : List (String × JVal)) : JVal
deriving Inhabited

namespace JVal

/-- Python truthiness of a value: None, False, 0, "", [], \x7b\x7d are falsy. -/
def truthy : JVal → Bool
  | .null => false
  | .bool b => b
  | .num q => q != 0
  | .str s => s != ""
  | .arr es => !es.isEmpty
  | .obj fs => !fs.isEmpty

/-- Model of Python d.get(k): first binding for the key, if any. -/
def lookup : JVal → String → Option JVal
  | .obj fs, k => (fs.find? (fun p => p.1 == k)).map Prod.snd
  | _, _ => none

/-- Model of the Python expression (k in d) on a dict. -/
def hasKey (v : JVal) (k : String) : Bool :=
  (v.lookup k).isSome

/-- Model of Python d.get(k, dflt). -/
def getD (v : JVal) (k : String) (dflt : JVal) : JVal :=
  (v.lookup k).getD dflt

end JVal

/-- Python exceptions that can escape the code under study. -/
inductive PyExn where
  | keyError (key : String) : PyExn
  | typeError (msg : String) : PyExn
deriving Repr, DecidableEq

/-- Model of Python d[k] on a dict: the value, or a KeyError. -/
def JVal.item (v : JVal) (k : String) : Except PyExn JVal :=
  match v.lookup k with
  | some x => .ok x
  | none => .error (.keyError k)

namespace PyDict

/-- Membership test on a string-keyed association list (Python: k in d). -/
def mem (d : List (String × α)) (k : String) : Bool :=
  d.any (fun p => p.1 == k)

/-- Lookup on a string-keyed association list (Python: d.get(k)). -/
def get (d : List (String × α)) (k : String) : Option α :=
  (d.find? (fun p => p.1 == k)).map Prod.snd

/-- Assignment d[k] = v with Python dict semantics: replace the existing
binding in place, otherwise append a new binding at the end. -/
def set (d : List (String × α)) (k : String) (v : α) : List (String × α) :=
  if mem d k then d.map (fun p => if p.1 == k then (k, v) else p)
  else d ++ [(k, v)]

/-- Deletion del d[k]. -/
def del (d : List (String × α)) (k : String) : List (String × α) :=
  d.filter (fun p => p.1 != k)

end PyDict

/-! Data model, from backend/app/schemas/world.py.

Fields whose Python values are assigned raw, dynamically typed data
(pydantic does not re-validate plain attribute assignment) are typed JVal
here; pydantic's construction-time numeric coercion of exotic values
(numeric strings and the like) is not modelled, the fields simply hold the
supplied JSON values. -/

/-- Vec3 schema: a 3D vector of floats, defaulting to the origin. -/
structure Vec3 where
  x : Rat := 0
  y : Rat := 0
  z : Rat := 0
deriving Repr, DecidableEq, Inhabited

/-- Color schema: RGB in the unit range, defaulting to white. -/
structure Color where
  r : Rat := 1
  g : Rat := 1
  b : Rat := 1
deriving Repr, DecidableEq, Inhabited

/-- GeometryType enum from the schema module. -/
inductive GeometryType where
  | box | sphere | cylinder | cone | torus | plane | custom
deriving Repr, DecidableEq, Inhabited

/-- Value string of a GeometryType member, as in the Python str enum. -/
def GeometryType.value : GeometryType → String
  | .box => "box"
  | .sphere => "sphere"
  | .cylinder => "cylinder"
  | .cone => "cone"
  | .torus => "torus"
  | .plane => "plane"
  | .custom => "custom"

/-- GeometryParams schema: type tag plus optional shape parameters. -/
structure GeometryParams where
  type : GeometryType := .box
  width : Option JVal := none
  height : Option JVal := none
  depth : Option JVal := none
  radius : Option JVal := none
  width_segments : Option JVal := none
  height_segments : Option JVal := none
  radius_top : Option JVal := none
  radius_bottom : Option JVal := none
  tube : Option JVal := none
  radial_segments : Option JVal := none
  tubular_segments : Option JVal := none
  vertices : Option JVal := none
  indices : Option JVal := none
  normals : Option JVal := none
  uvs : Option JVal := none
deriving Inhabited

/-- MaterialParams schema with its documented defaults. -/
structure MaterialParams where
  color : Color := {}
  emissive : Option Color := none
  emissive_intensity : JVal := .num 0
  metalness : JVal := .num 0
  roughness : JVal := .num (1/2)
  opacity : JVal := .num 1
  transparent : JVal := .bool false
  wireframe : JVal := .bool false
  flat_shading : JVal := .bool false
deriving Inhabited

/-- PhysicsParams schema with its documented defaults. -/
structure PhysicsParams where
  has_gravity : JVal := .bool true
  is_static : JVal := .bool true
  mass : JVal := .num 1
  friction : JVal := .num (1/2)
  restitution : JVal := .num (3/10)
deriving Inhabited

/-- AnimationParams schema with its documented defaults. -/
structure AnimationParams where
  type : JVal := .str "none"
  speed : JVal := .num 1
  axis : Vec3 := { x := 0, y := 1, z := 0 }
  amplitude : JVal := .num 1
deriving Inhabited

/-- WorldObject schema. The generated opaque id (uuid4) is omitted from
the model: no operation of the code under study ever reads it. -/
structure WorldObject where
  name : String
  description : String := ""
  position : Vec3 := {}
  rotation : Vec3 := {}
  scale : Vec3 := { x := 1, y := 1, z := 1 }
  geometry : GeometryParams := {}
  material : MaterialParams := {}
  physics : PhysicsParams := {}
  animation : AnimationParams := {}
  children : List WorldObject := []
  tags : JVal := .arr []
  metadata : JVal := .obj []

/-- EnvironmentSettings schema with its documented defaults. -/
structure EnvironmentSettings where
  sky_color : Color := { r := 53/100, g := 81/100, b := 92/100 }
  ground_color : Color := { r := 34/100, g := 49/100, b := 27/100 }
  fog_color : Option Color := none
  fog_near : JVal := .num 50
  fog_far : JVal := .num 200
  fog_enabled : JVal := .bool false
  ambient_light_color : Color := { r := 2/5, g := 2/5, b := 2/5 }
  ambient_light_intensity : JVal := .num (3/5)
  sun_color : Color := { r := 1, g := 19/20, b := 4/5 }
  sun_intensity : JVal := .num 1
  sun_position : Vec3 := { x := 50, y := 100, z := 50 }
  time_of_day : JVal := .str "day"
deriving Inhabited

/-- TerrainParams schema with its documented defaults. -/
structure TerrainParams where
  type : JVal := .str "flat"
  size : JVal := .num 100
  height : JVal := .num 10
  color : Color := { r := 34/100, g := 49/100, b := 27/100 }
  segments : JVal := .num 32
  seed : Option JVal := none
deriving Inhabited

/-- WorldState aggregate: name-keyed object dict (insertion-ordered, keys
unique), environment, terrain list, narrative log, turn counter. -/
structure WorldState where
  objects : List (String × WorldObject) := []
  environment : EnvironmentSettings := {}
  terrain : List TerrainParams := []
  narrative_history : List JVal := []
  turn_count : Nat := 0

/-! Parse helpers, from backend/app/services/world_state.py. -/

/-- Model of float(x) coercion as used by the parse helpers. Numbers pass
through, booleans coerce to 0/1, anything else raises. (Python also
converts numeric string literals; inputs of that shape are not modelled
and are treated as conversion failures.) -/
def pyFloat : JVal → Except PyExn Rat
  | .num q => .ok q
  | .bool b => .ok (if b then 1 else 0)
  | _ => .error (.typeError "float() argument must be a number")

/-- Coercion of a JSON value to a Python str for a pydantic str field;
non-strings raise. -/
def pyStr : JVal → Except PyExn String
  | .str s => .ok s
  | _ => .error (.typeError "value is not a string")

/-- Model of the module-level helper that parses a vec3 dict: a falsy
value yields the supplied default (or the origin), otherwise the x/y/z
entries are read with default 0 and coerced by float(). -/
def parse_vec3 (data : JVal) (default : Option Vec3) : Except PyExn Vec3 :=
  if !data.truthy then .ok (default.getD {})
  else match data with
    | .obj _ => do
      let x ← pyFloat (data.getD "x" (.num 0))
      let y ← pyFloat (data.getD "y" (.num 0))
      let z ← pyFloat (data.getD "z" (.num 0))
      .ok { x := x, y := y, z := z }
    | _ => .error (.typeError "vec3 data is not a dict")

/-- Model of the module-level helper that parses a color dict: a falsy
value yields the default white, otherwise r/g/b entries default to 1. -/
def parse_color (data : JVal) : Except PyExn Color :=
  if !data.truthy then .ok {}
  else match data with
    | .obj _ => do
      let r ← pyFloat (data.getD "r" (.num 1))
      let g ← pyFloat (data.getD "g" (.num 1))
      let b ← pyFloat (data.getD "b" (.num 1))
      .ok { r := r, g := g, b := b }
    | _ => .error (.typeError "color data is not a dict")

/-- Parsing of the geometry type tag, an enum-validated str field. -/
def parseGeometryType : JVal → Except PyExn GeometryType
  | .str "box" => .ok .box
  | .str "sphere" => .ok .sphere
  | .str "cylinder" => .ok .cylinder
  | .str "cone" => .ok .cone
  | .str "torus" => .ok .torus
  | .str "plane" => .ok .plane
  | .str "custom" => .ok .custom
  | _ => .error (.typeError "invalid GeometryType")

/-- One keyword argument of the GeometryParams constructor; keys outside
the schema are ignored, as pydantic does by default. -/
def applyGeoField (g : GeometryParams) (k : String) (v : JVal) :
    Except PyExn GeometryParams :=
  if k == "type" then do
    let t ← parseGeometryType v
    .ok { g with type := t }
  else if k == "width" then .ok { g with width := some v }
  else if k == "height" then .ok { g with height := some v }
  else if k == "depth" then .ok { g with depth := some v }
  else if k == "radius" then .ok { g with radius := some v }
  else if k == "width_segments" then .ok { g with width_segments := some v }
  else if k == "height_segments" then .ok { g with height_segments := some v }
  else if k == "radius_top" then .ok { g with radius_top := some v }
  else if k == "radius_bottom" then .ok { g with radius_bottom := some v }
  else if k == "tube" then .ok { g with tube := some v }
  else if k == "radial_segments" then .ok { g with radial_segments := some v }
  else if k == "tubular_segments" then .ok { g with tubular_segments := some v }
  else if k == "vertices" then .ok { g with vertices := some v }
  else if k == "indices" then .ok { g with indices := some v }
  else if k == "normals" then .ok { g with normals := some v }
  else if k == "uvs" then .ok { g with uvs := some v }
  else .ok g

/-- Model of the geometry helper: construct GeometryParams from the
non-None entries of the dict. -/
def parse_geometry (data : JVal) : Except PyExn GeometryParams :=
  match data with
  | .obj fs =>
    fs.foldlM (fun g p =>
      match p.2 with
      | .null => .ok g
      | v => applyGeoField g p.1 v) {}
  | _ => .error (.typeError "geometry data is not a dict")

/-- One keyword argument of the MaterialParams constructor; color-valued
keys go through the color helper, the rest are stored as given. -/
def applyMatField (m : MaterialParams) (k : String) (v : JVal) :
    Except PyExn MaterialParams :=
  if k == "color" then do
    let c ← parse_color v
    .ok { m with color := c }
  else if k == "emissive" then do
    let c ← parse_color v
    .ok { m with emissive := some c }
  else if k == "emissive_intensity" then .ok { m with emissive_intensity := v }
  else if k == "metalness" then .ok { m with metalness := v }
  else if k == "roughness" then .ok { m with roughness := v }
  else if k == "opacity" then .ok { m with opacity := v }
  else if k == "transparent" then .ok { m with transparent := v }
  else if k == "wireframe" then .ok { m with wireframe := v }
  else if k == "flat_shading" then .ok { m with flat_shading := v }
  else .ok m

/-- Model of the material helper: skip None values, parse colors, store
the rest raw. -/
def parse_material (data : JVal) : Except PyExn MaterialParams :=
  match data with
  | .obj fs =>
    fs.foldlM (fun m p =>
      match p.2 with
      | .null => .ok m
      | v => applyMatField m p.1 v) {}
  | _ => .error (.typeError "material data is not a dict")

/-- One keyword argument of the PhysicsParams constructor. -/
def applyPhysField (ph : PhysicsParams) (k : String) (v : JVal) : PhysicsParams :=
  if k == "has_gravity" then { ph with has_gravity := v }
  else if k == "is_static" then { ph with is_static := v }
  else if k == "mass" then { ph with mass := v }
  else if k == "friction" then { ph with friction := v }
  else if k == "restitution" then { ph with restitution := v }
  else ph

/-- Model of the physics helper: non-None values pass straight through. -/
def parse_physics (data : JVal) : Except PyExn PhysicsParams :=
  match data with
  | .obj fs =>
    .ok (fs.foldl (fun ph p =>
      match p.2 with
      | .null => ph
      | v => applyPhysField ph p.1 v) {})
  | _ => .error (.typeError "physics data is not a dict")

/-- One keyword argument of the AnimationParams constructor; the axis
goes through the vec3 helper, the rest are stored as given. -/
def applyAnimField (a : AnimationParams) (k : String) (v : JVal) :
    Except PyExn AnimationParams :=
  if k == "axis" then do
    let ax ← parse_vec3 v none
    .ok { a with axis := ax }
  else if k == "type" then .ok { a with type := v }
  else if k == "speed" then .ok { a with speed := v }
  else if k == "amplitude" then .ok { a with amplitude := v }
  else .ok a

/-- Model of the animation helper: skip None values, parse the axis,
store the rest raw. -/
def parse_animation (data : JVal) : Except PyExn AnimationParams :=
  match data with
  | .obj fs =>
    fs.foldlM (fun a p =>
      match p.2 with
      | .null => .ok a
      | v => applyAnimField a p.1 v) {}
  | _ => .error (.typeError "animation data is not a dict")

/-! World State Engine operations, from
backend/app/services/world_state.py (class WorldStateManager). -/

namespace WorldStateManager

/-- Construction of one child object inside create_object: a child
lacking a name gets the parent-derived generated one (uuid draw idx+1 for
the idx-th child), a child lacking geometry gets a plain box; children
carry no tags/metadata/children of their own. -/
def build_child (uuidHex : Nat → String) (parentName : String) (idx : Nat)
    (cd : JVal) : Except PyExn WorldObject := do
  match cd with
  | .obj _ => do
    let nameV := cd.getD "name"
      (.str (parentName ++ "_child_" ++ (uuidHex (idx + 1)).take 4))
    let cname ← pyStr nameV
    let geoV := cd.getD "geometry" (.obj [("type", .str "box")])
    let descr ← pyStr (cd.getD "description" (.str ""))
    let position ← parse_vec3 (cd.getD "position" .null) none
    let rotation ← parse_vec3 (cd.getD "rotation" .null) none
    let scale ← parse_vec3 (cd.getD "scale" .null) (some { x := 1, y := 1, z := 1 })
    let geometry ← parse_geometry geoV
    let material ← parse_material (cd.getD "material" (.obj []))
    let physics ← parse_physics (cd.getD "physics" (.obj []))
    let animation ← parse_animation (cd.getD "animation" (.obj []))
    .ok { name := cname, description := descr, position := position,
          rotation := rotation, scale := scale, geometry := geometry,
          material := material, physics := physics, animation := animation,
          children := [] }
  | _ => .error (.typeError "child spec is not a dict")

/-- Indexed traversal of the children list of a create_object spec. -/
def build_children (uuidHex : Nat → String) (parentName : String) :
    Nat → List JVal → Except PyExn (List WorldObject)
  | _, [] => .ok []
  | idx, cd :: rest => do
    let c ← build_child uuidHex parentName idx cd
    let cs ← build_children uuidHex parentName (idx + 1) rest
    .ok (c :: cs)

/-- The children argument of a create_object spec, which must be a list
(Python would fail to iterate anything else). -/
def childSpecsOf (data : JVal) : Except PyExn (List JVal) :=
  match data.getD "children" (.arr []) with
  | .arr cds => .ok cds
  | _ => .error (.typeError "children is not a list")

/-- Name resolution at the top of create_object: read the required name
argument (KeyError when missing) and, if it collides with an existing
top-level key, append an underscore and the first six characters of a
fresh uuid4 hex draw. -/
def resolved_name (uuidHex : Nat → String) (data : JVal) (st : WorldState) :
    Except PyExn String := do
  let nameV ← data.item "name"
  let reqName ← pyStr nameV
  .ok (if PyDict.mem st.objects reqName then
        reqName ++ "_" ++ (uuidHex 0).take 6
      else reqName)

/-- Model of WorldStateManager.create_object. The uuidHex stream stands
for the successive uuid4().hex draws: draw 0 supplies the collision
suffix, draw (idx+1) the generated name of the idx-th unnamed child. If
the requested name is already a key of the object dict, a six-character
suffix is appended and the adjusted name becomes the storage key. -/
def create_object (uuidHex : Nat → String) (data : JVal) (st : WorldState) :
    Except PyExn (WorldObject × WorldState) := do
  let name ← resolved_name uuidHex data st
  let descr ← pyStr (data.getD "description" (.str ""))
  let position ← parse_vec3 (data.getD "position" .null) none
  let rotation ← parse_vec3 (data.getD "rotation" .null) none
  let scale ← parse_vec3 (data.getD "scale" .null) (some { x := 1, y := 1, z := 1 })
  let geometry ← parse_geometry (data.getD "geometry" (.obj []))
  let material ← parse_material (data.getD "material" (.obj []))
  let physics ← parse_physics (data.getD "physics" (.obj []))
  let animation ← parse_animation (data.getD "animation" (.obj []))
  let childSpecs ← childSpecsOf data
  let children ← build_children uuidHex name 0 childSpecs
  let obj : WorldObject :=
    { name := name, description := descr, position := position,
      rotation := rotation, scale := scale, geometry := geometry,
      material := material, physics := physics, animation := animation,
      children := children,
      tags := data.getD "tags" (.arr []),
      metadata := data.getD "metadata" (.obj []) }
  .ok (obj, { st with objects := PyDict.set st.objects name obj })

/-- Sequencing combinator for the in-place guarded field updates of
modify_object and update_environment: a step whose parse fails leaves the
target as built so far and records the exception; later steps are
skipped. -/
def chainStep (cur : α × Option PyExn) (g : Option JVal)
    (f : JVal → α → Except PyExn α) : α × Option PyExn :=
  match cur with
  | (a, some e) => (a, some e)
  | (a, none) =>
    match g with
    | none => (a, none)
    | some v =>
      match f v a with
      | .ok a2 => (a2, none)
      | .error e => (a, some e)

/-- The sequence of guarded if-statements of a patch-style method, as a
fold over its step table: one table entry per source line, in source
order. -/
def runPatch (guard : JVal → String → Option JVal) (data : JVal)
    (steps : List (String × (JVal → α → Except PyExn α)))
    (cur : α × Option PyExn) : α × Option PyExn :=
  steps.foldl (fun c p => chainStep c (guard data p.1) p.2) cur

/-- Update guard of modify_object: the key must be present and its value
truthy. -/
def modGuard (data : JVal) (k : String) : Option JVal :=
  match data.lookup k with
  | some v => if v.truthy then some v else none
  | none => none

/-- Update guard of update_environment: key presence only, the value is
not inspected. -/
def envGuard (data : JVal) (k : String) : Option JVal :=
  data.lookup k

/-- Material sub-update of modify_object: each present sub-key is
applied; color goes through the color helper (so an explicit null color
resets to white), scalar sub-keys are assigned raw, null included. -/
def modifyMaterial (v : JVal) (o : WorldObject) : Except PyExn WorldObject :=
  match v with
  | .obj _ => do
    let m0 := o.material
    let m1 ←
      match v.lookup "color" with
      | some c => do
        let cc ← parse_color c
        Except.ok { m0 with color := cc }
      | none => Except.ok m0
    let m2 := match v.lookup "metalness" with
      | some x => { m1 with metalness := x }
      | none => m1
    let m3 := match v.lookup "roughness" with
      | some x => { m2 with roughness := x }
      | none => m2
    let m4 := match v.lookup "opacity" with
      | some x => { m3 with opacity := x }
      | none => m3
    let m5 := match v.lookup "transparent" with
      | some x => { m4 with transparent := x }
      | none => m4
    .ok { o with material := m5 }
  | _ => .error (.typeError "material data is not a dict")

/-- Position update line of modify_object. -/
def modSetPosition (v : JVal) (o : WorldObject) : Except PyExn WorldObject :=
  (parse_vec3 v none).map (fun p => { o with position := p })

/-- Rotation update line of modify_object. -/
def modSetRotation (v : JVal) (o : WorldObject) : Except PyExn WorldObject :=
  (parse_vec3 v none).map (fun p => { o with rotation := p })

/-- Scale update line of modify_object (default scale (1,1,1)). -/
def modSetScale (v : JVal) (o : WorldObject) : Except PyExn WorldObject :=
  (parse_vec3 v (some { x := 1, y := 1, z := 1 })).map
    (fun p => { o with scale := p })

/-- Animation update line of modify_object. -/
def modSetAnimation (v : JVal) (o : WorldObject) : Except PyExn WorldObject :=
  (parse_animation v).map (fun a => { o with animation := a })

/-- Step table of modify_object, in source order: position, rotation,
scale, material, animation. -/
def modStepList : List (String × (JVal → WorldObject → Except PyExn WorldObject)) :=
  [("position", modSetPosition), ("rotation", modSetRotation),
   ("scale", modSetScale), ("material", modifyMaterial),
   ("animation", modSetAnimation)]

/-- Field-update chain of modify_object on a found object; each step is
guarded on present-and-truthy. -/
def modifySteps (data : JVal) (o : WorldObject) : WorldObject × Option PyExn :=
  runPatch modGuard data modStepList (o, none)

/-- Target key of modify_object: data.get("name", "") when it is a
string; a non-string value never matches a key of the str-keyed dict. -/
def modKey (data : JVal) : Option String :=
  match data.getD "name" (.str "") with
  | .str s => some s
  | _ => none

/-- Model of WorldStateManager.modify_object: look the target up under
data.get("name", "") and apply the sparse updates in place; an absent
target returns the not-found signal with the state untouched. -/
def modify_object (data : JVal) (st : WorldState) :
    Except PyExn (Option WorldObject) × WorldState :=
  match modKey data with
  | none => (.ok none, st)
  | some k =>
    match PyDict.get st.objects k with
    | none => (.ok none, st)
    | some obj =>
      match modifySteps data obj with
      | (o2, none) =>
        (.ok (some o2), { st with objects := PyDict.set st.objects k o2 })
      | (o2, some e) =>
        (.error e, { st with objects := PyDict.set st.objects k o2 })

/-- Model of WorldStateManager.remove_object. -/
def remove_object (name : String) (st : WorldState) : Bool × WorldState :=
  if PyDict.mem st.objects name then
    (true, { st with objects := PyDict.del st.objects name })
  else (false, st)

/-- Sky color update line of update_environment. -/
def envSetSkyColor (v : JVal) (e : EnvironmentSettings) : Except PyExn EnvironmentSettings :=
  (parse_color v).map (fun c => { e with sky_color := c })

/-- Fog flag update line of update_environment (raw assignment). -/
def envSetFogEnabled (v : JVal) (e : EnvironmentSettings) : Except PyExn EnvironmentSettings :=
  .ok { e with fog_enabled := v }

/-- Fog color update line of update_environment. -/
def envSetFogColor (v : JVal) (e : EnvironmentSettings) : Except PyExn EnvironmentSettings :=
  (parse_color v).map (fun c => { e with fog_color := some c })

/-- Fog near-distance update line of update_environment (raw assignment). -/
def envSetFogNear (v : JVal) (e : EnvironmentSettings) : Except PyExn EnvironmentSettings :=
  .ok { e with fog_near := v }

/-- Fog far-distance update line of update_environment (raw assignment). -/
def envSetFogFar (v : JVal) (e : EnvironmentSettings) : Except PyExn EnvironmentSettings :=
  .ok { e with fog_far := v }

/-- Ambient light color update line of update_environment. -/
def envSetAmbientLightColor (v : JVal) (e : EnvironmentSettings) : Except PyExn EnvironmentSettings :=
  (parse_color v).map (fun c => { e with ambient_light_color := c })

/-- Ambient intensity update line of update_environment (raw assignment). -/
def envSetAmbientLightIntensity (v : JVal) (e : EnvironmentSettings) : Except PyExn EnvironmentSettings :=
  .ok { e with ambient_light_intensity := v }

/-- Sun color update line of update_environment. -/
def envSetSunColor (v : JVal) (e : EnvironmentSettings) : Except PyExn EnvironmentSettings :=
  (parse_color v).map (fun c => { e with sun_color := c })

/-- Sun intensity update line of update_environment (raw assignment). -/
def envSetSunIntensity (v : JVal) (e : EnvironmentSettings) : Except PyExn EnvironmentSettings :=
  .ok { e with sun_intensity := v }

/-- Sun position update line of update_environment. -/
def envSetSunPosition (v : JVal) (e : EnvironmentSettings) : Except PyExn EnvironmentSettings :=
  (parse_vec3 v none).map (fun p => { e with sun_position := p })

/-- Time-of-day update line of update_environment (raw assignment). -/
def envSetTimeOfDay (v : JVal) (e : EnvironmentSettings) : Except PyExn EnvironmentSettings :=
  .ok { e with time_of_day := v }

/-- Step table of update_environment, one entry per source line, in
source order. -/
def envStepList : List (String × (JVal → EnvironmentSettings → Except PyExn EnvironmentSettings)) :=
  [("sky_color", envSetSkyColor), ("fog_enabled", envSetFogEnabled),
   ("fog_color", envSetFogColor), ("fog_near", envSetFogNear),
   ("fog_far", envSetFogFar), ("ambient_light_color", envSetAmbientLightColor),
   ("ambient_light_intensity", envSetAmbientLightIntensity),
   ("sun_color", envSetSunColor), ("sun_intensity", envSetSunIntensity),
   ("sun_position", envSetSunPosition), ("time_of_day", envSetTimeOfDay)]

/-- Field-update chain of update_environment; every guard is key
presence only, so a present null is applied (scalars become null, colors
become the parse default). -/
def envSteps (data : JVal) (e : EnvironmentSettings) :
    EnvironmentSettings × Option PyExn :=
  runPatch envGuard data envStepList (e, none)

/-- Model of WorldStateManager.update_environment: presence-guarded
in-place patch of the singleton environment. -/
def update_environment (data : JVal) (st : WorldState) :
    Except PyExn EnvironmentSettings × WorldState :=
  match envSteps data st.environment with
  | (e2, none) => (.ok e2, { st with environment := e2 })
  | (e2, some ex) => (.error ex, { st with environment := e2 })

/-- Model of WorldStateManager.add_terrain. -/
def add_terrain (data : JVal) (st : WorldState) :
    Except PyExn TerrainParams × WorldState :=
  match parse_color (data.getD "color" (.obj [])) with
  | .error e => (.error e, st)
  | .ok c =>
    let t : TerrainParams :=
      { type := data.getD "type" (.str "flat"),
        size := data.getD "size" (.num 100),
        height := data.getD "height" (.num 10),
        color := c,
        segments := data.getD "segments" (.num 32),
        seed := match data.lookup "seed" with
          | some JVal.null => none
          | x => x }
    (.ok t, { st with terrain := st.terrain ++ [t] })

/-- Model of WorldStateManager.add_narrative: append, then keep only the
20 most recent entries. -/
def add_narrative (text : JVal) (st : WorldState) : WorldState :=
  let h := st.narrative_history ++ [text]
  let h := if h.length > 20 then h.drop (h.length - 20) else h
  { st with narrative_history := h }

/-- Model of WorldStateManager.increment_turn. -/
def increment_turn (st : WorldState) : WorldState :=
  { st with turn_count := st.turn_count + 1 }

end WorldStateManager

/-! Text rendering used by get_context_summary. Exact reproduction of
CPython float repr is out of scope; rationals of interest here have short
exact decimal expansions, which is what these helpers print. -/

/-- Decimal digits of the fraction r/d, stopping at remainder 0 or after
the fuel runs out. -/
def fracDigits : Nat → Nat → Nat → List Nat
  | 0, _, _ => []
  | _, 0, _ => []
  | fuel + 1, r, d =>
    let r10 := r * 10
    r10 / d :: fracDigits fuel (r10 % d) d

/-- Decimal rendering of a rational in the style of Python float repr:
integral values keep a trailing .0. -/
def ratRepr (q : Rat) : String :=
  let n := q.num.natAbs
  let i := n / q.den
  let r := n % q.den
  let ds := fracDigits 12 r q.den
  let frac := if ds.isEmpty then "0" else String.join (ds.map toString)
  (if q.num < 0 then "-" else "") ++ toString i ++ "." ++ frac

/-- One-decimal fixed formatting, the model of the :.1f format spec
(rounding of exact halves is simplified to half-up). -/
def fmt1 (q : Rat) : String :=
  let rounded : Int := (q * 10 + 1/2).floor
  let a := rounded.natAbs
  (if rounded < 0 then "-" else "") ++ toString (a / 10) ++ "." ++ toString (a % 10)

/-- Rendering of a dynamic value inside an f-string, the model of
Python str(); containers are not rendered in detail (no claim depends on
them). -/
def JVal.pyRepr : JVal → String
  | .null => "None"
  | .bool true => "True"
  | .bool false => "False"
  | .num q => ratRepr q
  | .str s => s
  | .arr _ => "[...]"
  | .obj _ => "\x7b...\x7d"

namespace WorldStateManager

/-- Model of WorldStateManager.get_context_summary: the deterministic
digest of the state re-sent to the agent each turn. -/
def get_context_summary (st : WorldState) : String :=
  let base := ["Turn: " ++ toString st.turn_count,
               "Objects in scene: " ++ toString st.objects.length]
  let objLines :=
    if st.objects.isEmpty then []
    else "\nCurrent objects:" ::
      st.objects.map (fun p =>
        "  - " ++ p.1 ++ ": " ++
        (if p.2.description != "" then p.2.description
         else p.2.geometry.type.value) ++
        " at (" ++ fmt1 p.2.position.x ++ ", " ++ fmt1 p.2.position.y ++
        ", " ++ fmt1 p.2.position.z ++ ")")
  let terrLines :=
    if st.terrain.isEmpty then []
    else ["\nTerrain: " ++
      String.intercalate ", " (st.terrain.map (fun t => t.type.pyRepr))]
  let envLine :=
    ["\nEnvironment: " ++ st.environment.time_of_day.pyRepr ++
     ", sun intensity " ++ st.environment.sun_intensity.pyRepr]
  let narrLines :=
    if st.narrative_history.isEmpty then []
    else "\nRecent narrative:" ::
      ((st.narrative_history.drop (st.narrative_history.length - 5)).map
        (fun e => "  \"" ++ e.pyRepr ++ "\""))
  String.intercalate "\n" (base ++ objLines ++ terrLines ++ envLine ++ narrLines)

end WorldStateManager

/-! Serialization (pydantic model_dump) of the schema types into JSON
values, used for the data payloads of Actions. -/

/-- JSON dump of a Vec3. -/
def dumpVec3 (v : Vec3) : JVal :=
  .obj [("x", .num v.x), ("y", .num v.y), ("z", .num v.z)]

/-- JSON dump of a Color. -/
def dumpColor (c : Color) : JVal :=
  .obj [("r", .num c.r), ("g", .num c.g), ("b", .num c.b)]

/-- JSON dump of an optional value, null when absent. -/
def dumpOpt (f : α → JVal) : Option α → JVal
  | none => .null
  | some x => f x

/-- JSON dump of GeometryParams. -/
def dumpGeometry (g : GeometryParams) : JVal :=
  .obj [("type", .str g.type.value),
        ("width", (g.width).getD .null),
        ("height", (g.height).getD .null),
        ("depth", (g.depth).getD .null),
        ("radius", (g.radius).getD .null),
        ("width_segments", (g.width_segments).getD .null),
        ("height_segments", (g.height_segments).getD .null),
        ("radius_top", (g.radius_top).getD .null),
        ("radius_bottom", (g.radius_bottom).getD .null),
        ("tube", (g.tube).getD .null),
        ("radial_segments", (g.radial_segments).getD .null),
        ("tubular_segments", (g.tubular_segments).getD .null),
        ("vertices", (g.vertices).getD .null),
        ("indices", (g.indices).getD .null),
        ("normals", (g.normals).getD .null),
        ("uvs", (g.uvs).getD .null)]

/-- JSON dump of MaterialParams. -/
def dumpMaterial (m : MaterialParams) : JVal :=
  .obj [("color", dumpColor m.color),
        ("emissive", dumpOpt dumpColor m.emissive),
        ("emissive_intensity", m.emissive_intensity),
        ("metalness", m.metalness),
        ("roughness", m.roughness),
        ("opacity", m.opacity),
        ("transparent", m.transparent),
        ("wireframe", m.wireframe),
        ("flat_shading", m.flat_shading)]

/-- JSON dump of PhysicsParams. -/
def dumpPhysics (p : PhysicsParams) : JVal :=
  .obj [("has_gravity", p.has_gravity), ("is_static", p.is_static),
        ("mass", p.mass), ("friction", p.friction),
        ("restitution", p.restitution)]

/-- JSON dump of AnimationParams. -/
def dumpAnimation (a : AnimationParams) : JVal :=
  .obj [("type", a.type), ("speed", a.speed),
        ("axis", dumpVec3 a.axis), ("amplitude", a.amplitude)]

mutual

/-- JSON dump of a WorldObject (the omitted opaque id aside). -/
def dumpObject : WorldObject → JVal
  | ⟨name, descr, pos, rot, sc, geo, mat, phy, anim, children, tags, md⟩ =>
    .obj [("name", .str name),
          ("description", .str descr),
          ("position", dumpVec3 pos),
          ("rotation", dumpVec3 rot),
          ("scale", dumpVec3 sc),
          ("geometry", dumpGeometry geo),
          ("material", dumpMaterial mat),
          ("physics", dumpPhysics phy),
          ("animation", dumpAnimation anim),
          ("children", .arr (dumpObjects children)),
          ("tags", tags),
          ("metadata", md)]

/-- JSON dump of a list of WorldObjects. -/
def dumpObjects : List WorldObject → List JVal
  | [] => []
  | o :: os => dumpObject o :: dumpObjects os

end

/-- JSON dump of EnvironmentSettings. -/
def dumpEnvironment (e : EnvironmentSettings) : JVal :=
  .obj [("sky_color", dumpColor e.sky_color),
        ("ground_color", dumpColor e.ground_color),
        ("fog_color", dumpOpt dumpColor e.fog_color),
        ("fog_near", e.fog_near),
        ("fog_far", e.fog_far),
        ("fog_enabled", e.fog_enabled),
        ("ambient_light_color", dumpColor e.ambient_light_color),
        ("ambient_light_intensity", e.ambient_light_intensity),
        ("sun_color", dumpColor e.sun_color),
        ("sun_intensity", e.sun_intensity),
        ("sun_position", dumpVec3 e.sun_position),
        ("time_of_day", e.time_of_day)]

/-- JSON dump of TerrainParams. -/
def dumpTerrain (t : TerrainParams) : JVal :=
  .obj [("type", t.type), ("size", t.size), ("height", t.height),
        ("color", dumpColor t.color), ("segments", t.segments),
        ("seed", (t.seed).getD .null)]

/-! Agent Orchestrator, from backend/app/services/llm_service.py. -/

/-- One tool invocation of a provider response. The arguments field models
the JSON payload after json.loads; the encoded string form is not
modelled separately. -/
structure ToolCall where
  id : String
  name : String
  arguments : JVal

/-- The message part of a provider response. -/
structure ProviderMessage where
  content : Option String
  tool_calls : List ToolCall

/-- One provider response: message, finish reason, and optional token
usage (prompt tokens, completion tokens). -/
structure ProviderResponse where
  message : ProviderMessage
  finish_reason : String
  usage : Option (Nat × Nat)

/-- Outcome of one chat-completion call: a response, or the APIError the
client raised. The provider is modelled as a function from the index of
the call within the turn (0 = initial round) to its outcome, so theorems
quantify over every possible provider behavior. -/
inductive ProviderResult where
  | ok (resp : ProviderResponse)
  | apiError (msg : String)

/-- One entry of the orchestrator's conversation history. An assistant
entry with an empty tool-call list models an assistant message without a
tool_calls key. -/
inductive ChatMsg where
  | user (content : String)
  | assistant (content : Option String) (tool_calls : List ToolCall)
  | tool (tool_call_id : String) (content : String)

/-- One generated file reported by the mesh-generation collaborator. -/
structure ExecFile where
  name : String
  filename : String
  url : String

/-- Result contract of the mesh-generation collaborator: success flag,
file list, and the value of the error key (none when the key is absent
altogether). -/
structure ExecResult where
  success : Bool
  files : List ExecFile
  error : Option JVal

/-- The external capabilities consumed by the orchestrator: the sandboxed
code executor and the uuid4 hex stream. -/
structure Oracle where
  execModel : JVal → ExecResult
  uuidHex : Nat → String

/-- One Action dict as built by the orchestrator: the type tag, the
optional top-level name entry, and the data payload. (Named WorldAction
because Mathlib already owns the plain name Action.) -/
structure WorldAction where
  type : String
  name : Option JVal
  data : JVal

/-- Convenience constructor for error Actions. -/
def errorAction (msg : String) : WorldAction :=
  { type := "error", name := none, data := .obj [("message", .str msg)] }

namespace LLMService

/-- Per-session cost accumulator. -/
structure CostTracker where
  total_input_tokens : Nat := 0
  total_output_tokens : Nat := 0
  total_requests : Nat := 0
deriving Repr, DecidableEq, Inhabited

/-- Input price per million tokens. -/
def INPUT_COST_PER_M : Rat := 5/4

/-- Output price per million tokens. -/
def OUTPUT_COST_PER_M : Rat := 10

/-- Model of CostTracker.record. -/
def CostTracker.record (c : CostTracker) (input_tokens output_tokens : Nat) :
    CostTracker :=
  { total_input_tokens := c.total_input_tokens + input_tokens,
    total_output_tokens := c.total_output_tokens + output_tokens,
    total_requests := c.total_requests + 1 }

/-- Model of the CostTracker.total_cost property. -/
def CostTracker.total_cost (c : CostTracker) : Rat :=
  (c.total_input_tokens : Rat) / 1000000 * INPUT_COST_PER_M
    + (c.total_output_tokens : Rat) / 1000000 * OUTPUT_COST_PER_M

/-- Model of round(x, 4); rounding of exact halves is simplified to
half-up. -/
def round4 (q : Rat) : Rat := ((q * 10000 + 1/2).floor : Rat) / 10000

/-- Model of CostTracker.summary. -/
def CostTracker.summary (c : CostTracker) : JVal :=
  .obj [("total_requests", .num c.total_requests),
        ("total_input_tokens", .num c.total_input_tokens),
        ("total_output_tokens", .num c.total_output_tokens),
        ("total_cost_usd", .num (round4 c.total_cost))]

/-- Mutable state of one LLMService instance: the owned world state, the
bounded conversation history, and the cost tracker. -/
structure LLMState where
  world : WorldState
  conversation_history : List ChatMsg := []
  cost_tracker : CostTracker := {}

/-- The generate_3d_model block of the dispatcher after the required
code argument was read: run the collaborator and build either the
model_uploaded Action (first generated file) or the failure error
Action. -/
def genModelAction (oracle : Oracle) (input_data : JVal) (code : JVal) :
    WorldAction :=
  let object_name := input_data.getD "object_name" (.str "generated_model")
  let position := input_data.getD "position"
    (.obj [("x", .num 0), ("y", .num 0), ("z", .num 0)])
  let scale := input_data.getD "scale"
    (.obj [("x", .num 1), ("y", .num 1), ("z", .num 1)])
  let rotation := input_data.getD "rotation"
    (.obj [("x", .num 0), ("y", .num 0), ("z", .num 0)])
  let result := oracle.execModel code
  if result.success && !result.files.isEmpty then
    match result.files with
    | file_info :: _ =>
      { type := "model_uploaded", name := some object_name,
        data := .obj [("name", object_name),
                      ("url", .str file_info.url),
                      ("position", position),
                      ("scale", scale),
                      ("rotation", rotation)] }
    | [] => errorAction "Model generation failed: unreachable"
  else
    let error_msg :=
      match result.error with
      | some v => v.pyRepr
      | none => "Unknown error during model generation"
    errorAction ("Model generation failed: " ++ error_msg)

/-- Model of LLMService._execute_tool: the closed dispatch from tool name
to a world-state operation, producing an Action; exceptions raised by the
operations (for example a KeyError on a missing required argument) are
not caught here. -/
def execute_tool (oracle : Oracle) (name : String) (input_data : JVal)
    (w : WorldState) : Except PyExn WorldAction × WorldState :=
  if name == "create_object" then
    match WorldStateManager.create_object oracle.uuidHex input_data w with
    | .ok (obj, w2) =>
      (.ok { type := "object_created", name := some (.str obj.name),
             data := dumpObject obj }, w2)
    | .error e => (.error e, w)
  else if name == "modify_object" then
    match WorldStateManager.modify_object input_data w with
    | (.ok (some obj), w2) =>
      (.ok { type := "object_modified", name := some (.str obj.name),
             data := dumpObject obj }, w2)
    | (.ok none, w2) =>
      (.ok (errorAction
        ("Object not found: " ++ (input_data.getD "name" .null).pyRepr)), w2)
    | (.error e, w2) => (.error e, w2)
  else if name == "remove_object" then
    match input_data.item "name" with
    | .error e => (.error e, w)
    | .ok nameV =>
      let found :=
        match nameV with
        | .str s => WorldStateManager.remove_object s w
        | _ => (false, w)
      (.ok { type := if found.1 then "object_removed" else "error",
             name := some nameV,
             data := .obj [("name", nameV), ("success", .bool found.1)] },
       found.2)
  else if name == "set_environment" then
    match WorldStateManager.update_environment input_data w with
    | (.ok env, w2) =>
      (.ok { type := "environment_updated", name := none,
             data := dumpEnvironment env }, w2)
    | (.error e, w2) => (.error e, w2)
  else if name == "create_terrain" then
    match WorldStateManager.add_terrain input_data w with
    | (.ok t, w2) =>
      (.ok { type := "terrain_created", name := none, data := dumpTerrain t }, w2)
    | (.error e, w2) => (.error e, w2)
  else if name == "generate_3d_model" then
    match input_data.item "code" with
    | .error e => (.error e, w)
    | .ok code => (.ok (genModelAction oracle input_data code), w)
  else if name == "narrate" then
    match input_data.item "text" with
    | .error e => (.error e, w)
    | .ok text =>
      (.ok { type := "narration", name := none,
             data := .obj [("text", text)] },
       WorldStateManager.add_narrative text w)
  else
    (.ok (errorAction ("Unknown tool: " ++ name)), w)

/-- Content of the tool-result history entry appended after a dispatched
tool call; the phrasing is fixed and is not conditioned on whether the
Action is an error. -/
def toolResultContent (a : WorldAction) : String :=
  "Success: " ++ a.type ++ " - " ++ (a.name.getD (.str "")).pyRepr

/-- The tool-call loop shared verbatim by process_user_input and
_continue_generation: dispatch each invocation in order, collect its
Action, and append a tool-result entry to the conversation history. An
exception escapes the loop: the collected Actions are lost, the state
mutations made so far are kept. -/
def execToolCalls (oracle : Oracle) :
    List ToolCall → List WorldAction → LLMState →
    Except PyExn (List WorldAction) × LLMState
  | [], acc, s => (.ok acc, s)
  | tc :: rest, acc, s =>
    match execute_tool oracle tc.name tc.arguments s.world with
    | (.error e, w2) => (.error e, { s with world := w2 })
    | (.ok a, w2) =>
      let hist2 := s.conversation_history ++ [ChatMsg.tool tc.id (toolResultContent a)]
      let s2 : LLMState := { s with world := w2, conversation_history := hist2 }
      execToolCalls oracle rest (acc ++ [a]) s2

/-- Usage-recording step at the top of each round. -/
def recordUsage (resp : ProviderResponse) (s : LLMState) : LLMState :=
  match resp.usage with
  | some u => { s with cost_tracker := s.cost_tracker.record u.1 u.2 }
  | none => s

/-- Appending of the assistant message to the conversation history. -/
def appendAssistant (resp : ProviderResponse) (s : LLMState) : LLMState :=
  { s with conversation_history := s.conversation_history ++
    [ChatMsg.assistant resp.message.content resp.message.tool_calls] }

/-- The response-handling body shared verbatim by process_user_input and
_continue_generation: record usage, append the assistant message,
dispatch the tool calls in order, and report whether the response asks
for a continuation (tool calls present and finish_reason tool_calls). -/
def runRound (oracle : Oracle) (resp : ProviderResponse) (s : LLMState) :
    Except PyExn (List WorldAction) × LLMState × Bool :=
  let s2 := appendAssistant resp (recordUsage resp s)
  if resp.message.tool_calls.isEmpty then (.ok [], s2, false)
  else
    match execToolCalls oracle resp.message.tool_calls [] s2 with
    | (.error e, s3) => (.error e, s3, false)
    | (.ok acts, s3) => (.ok acts, s3, resp.finish_reason == "tool_calls")

/-- Result of a turn (or of a continuation subtree): the Action list or
the escaped exception, the final service state, and the index of the next
provider call, which doubles as the count of chat-completion calls made
so far in the turn. -/
structure TurnRes where
  result : Except PyExn (List WorldAction)
  state : LLMState
  nextIdx : Nat

/-- The context-prefixed user message composed at the top of
process_user_input. -/
def user_message_of (user_text : String) (s : LLMState) : String :=
  "[Current World State]\n" ++ WorldStateManager.get_context_summary s.world ++
    "\n\n[User says]: " ++ user_text

/-- The history-management prefix of process_user_input: append the
context-prefixed user message, then trim the history to its 16 most
recent entries when its length exceeds 20. -/
def appendUserMessage (user_text : String) (s : LLMState) : LLMState :=
  let h0 := s.conversation_history ++ [ChatMsg.user (user_message_of user_text s)]
  let h1 := if h0.length > 20 then h0.drop (h0.length - 16) else h0
  { s with conversation_history := h1 }

/-- Recursion engine of LLMService._continue_generation, driven by the
remaining continuation budget (5 - depth) so that each level makes one
more provider call, swallows an APIError (logged only), and recurses
while the finish_reason asks for tool calls. -/
def continue_generation_go (provider : Nat → ProviderResult) (oracle : Oracle) :
    Nat → Nat → LLMState → TurnRes
  | 0, idx, s => ⟨.ok [], s, idx⟩
  | fuel + 1, idx, s =>
    match provider idx with
    | .apiError _ => ⟨.ok [], s, idx + 1⟩
    | .ok resp =>
      match runRound oracle resp s with
      | (.error e, s2, _) => ⟨.error e, s2, idx + 1⟩
      | (.ok acts, s2, cont) =>
        if cont then
          let r := continue_generation_go provider oracle fuel (idx + 1) s2
          match r.result with
          | .ok more => ⟨.ok (acts ++ more), r.state, r.nextIdx⟩
          | .error e => ⟨.error e, r.state, r.nextIdx⟩
        else ⟨.ok acts, s2, idx + 1⟩

/-- Model of LLMService._continue_generation: a call at depth 5 or more
stops silently with no further Action; below the cap one more provider
round runs and a tool_calls finish_reason recurses at depth + 1. -/
def continue_generation (provider : Nat → ProviderResult) (oracle : Oracle)
    (depth : Nat) (idx : Nat) (s : LLMState) : TurnRes :=
  continue_generation_go provider oracle (5 - depth) idx s

/-- Model of LLMService.process_user_input: append the context-prefixed
user message, trim the history to the 16 most recent entries when it
exceeds 20, run the initial provider round (an APIError here yields a
single error Action and ends the turn), and continue while the response
asks for more tool calls. -/
def process_user_input (provider : Nat → ProviderResult) (oracle : Oracle)
    (user_text : String) (s : LLMState) : TurnRes :=
  let s0 := appendUserMessage user_text s
  match provider 0 with
  | .apiError msg => ⟨.ok [errorAction ("AI service error: " ++ msg)], s0, 1⟩
  | .ok resp =>
    match runRound oracle resp s0 with
    | (.error e, s2, _) => ⟨.error e, s2, 1⟩
    | (.ok acts, s2, cont) =>
      if cont then
        let r := continue_generation provider oracle 0 1 s2
        match r.result with
        | .ok more => ⟨.ok (acts ++ more), r.state, r.nextIdx⟩
        | .error e => ⟨.error e, r.state, r.nextIdx⟩
      else ⟨.ok acts, s2, 1⟩

end LLMService

/-! Session layer, from backend/app/api/websocket.py. -/

/-- One client-bound message envelope (type tag plus data payload). -/
structure Event where
  type : String
  data : JVal

namespace Session

open LLMService

/-- Per-connection state: the busy flag and the owned LLM service state
(which in turn owns the world state). -/
structure SessionState where
  processing : Bool := false
  llm : LLMState

/-- A status event with the given message text. -/
def statusEv (m : String) : Event :=
  ⟨"status", .obj [("message", .str m)]⟩

/-- Rendering of str(e) for an exception reaching the Session boundary.
Python puts quotes around a KeyError key. -/
def pyExnStr : PyExn → String
  | .keyError k => "\x27" ++ k ++ "\x27"
  | .typeError m => m

/-- The per-Action event emission of Session.process_input: each of the
eight known action types maps to the client message type of the same
name; anything else emits nothing. -/
def actionEvent (a : WorldAction) : Option Event :=
  if a.type == "object_created" then some ⟨"object_created", a.data⟩
  else if a.type == "object_modified" then some ⟨"object_modified", a.data⟩
  else if a.type == "object_removed" then some ⟨"object_removed", a.data⟩
  else if a.type == "environment_updated" then some ⟨"environment_updated", a.data⟩
  else if a.type == "terrain_created" then some ⟨"terrain_created", a.data⟩
  else if a.type == "narration" then some ⟨"narration", a.data⟩
  else if a.type == "model_uploaded" then some ⟨"model_uploaded", a.data⟩
  else if a.type == "error" then some ⟨"error", a.data⟩
  else none

/-- Model of Session.process_input: reject with a transient status when a
turn is already in flight; otherwise set the busy flag, emit the progress
status, increment the world turn counter, run the orchestrator, emit one
event per Action in list order, and finish with the ready status carrying
the cumulative cost summary. An exception escaping the orchestrator is
reported as a generic error event; the finally block clears the busy
flag on every path. -/
def process_input (provider : Nat → ProviderResult) (oracle : Oracle)
    (text : String) (ss : SessionState) : List Event × SessionState :=
  if ss.processing then
    ([statusEv "Still processing previous request..."], ss)
  else
    let llm1 : LLMState :=
      { ss.llm with world := WorldStateManager.increment_turn ss.llm.world }
    let r := LLMService.process_user_input provider oracle text llm1
    match r.result with
    | .ok actions =>
      let evs :=
        [statusEv "Imagining your world..."] ++
        (if actions.isEmpty then []
         else [statusEv ("Building " ++ toString actions.length ++ " elements...")]) ++
        actions.filterMap actionEvent ++
        [⟨"status", .obj [("message", .str "Ready"),
                          ("cost", r.state.cost_tracker.summary)]⟩]
      (evs, { processing := false, llm := r.state })
    | .error e =>
      ([statusEv "Imagining your world...",
        ⟨"error", .obj [("message", .str (pyExnStr e))]⟩],
       { processing := false, llm := r.state })

end Session

/-! Concrete scenarios used by witnesses and counterexamples. -/

/-- A WorldObject with the construction-time defaults. -/
def mkObj (n : String) : WorldObject :=
  ⟨n, "", {}, {}, { x := 1, y := 1, z := 1 }, {}, {}, {}, {}, [], .arr [], .obj []⟩

/-- A fixed external-capability bundle: the mesh executor always fails,
the uuid stream is constant. -/
def fixedOracle : Oracle := ⟨fun _ => ⟨false, [], none⟩, fun _ => "abcdef123"⟩

/-- An LLM service state over an empty world with no history. -/
def emptyLLM : LLMService.LLMState := ⟨{}, [], {}⟩

/-- C1 scenario: a create_object spec requesting the name tree. -/
def c1data : JVal :=
  .obj [("name", .str "tree"), ("geometry", .obj [("type", .str "cylinder")])]

/-- C1 scenario: a world that already holds a top-level object tree. -/
def c1st : WorldState := { objects := [("tree", mkObj "tree")] }

/-- C1 scenario: the colliding create_object call. -/
def c1res : Except PyExn (WorldObject × WorldState) :=
  WorldStateManager.create_object fixedOracle.uuidHex c1data c1st

/-- C1 scenario: the created object. -/
def c1obj : WorldObject :=
  match c1res with
  | .ok (o, _) => o
  | .error _ => mkObj ""

/-- C1 scenario: the world after the colliding call. -/
def c1st2 : WorldState :=
  match c1res with
  | .ok (_, s) => s
  | .error _ => c1st

/-- C2 scenario: a provider whose every call fails. -/
def c2prov : Nat → ProviderResult := fun _ => .apiError "down"

/-- C3 scenario: a mesh-generation tool call. -/
def c3tc : ToolCall := ⟨"c1", "generate_3d_model", .obj [("code", .str "make()")]⟩

/-- C3 scenario: the mesh collaborator reports a failure. -/
def c3oracle : Oracle :=
  ⟨fun _ => ⟨false, [], some (.str "boom")⟩, fun _ => "abcdef123"⟩

/-- C3 scenario: the response dispatches the failing mesh call but its
finish_reason is stop. -/
def c3resp : ProviderResponse := ⟨⟨none, [c3tc]⟩, "stop", none⟩

/-- C3 scenario: the provider would offer the same tool calls forever,
so any continuation round would be observable in nextIdx. -/
def c3prov : Nat → ProviderResult := fun _ => .ok c3resp

/-- C3 scenario: the completed turn. -/
def c3run : LLMService.TurnRes :=
  LLMService.process_user_input c3prov c3oracle "make a dragon" emptyLLM

/-- Witness scenario for continuation: a narrate tool call. -/
def narrTc : ToolCall := ⟨"c2", "narrate", .obj [("text", .str "hi")]⟩

/-- Witness scenario: a narrate round that asks to continue. -/
def narrResp : ProviderResponse := ⟨⟨none, [narrTc]⟩, "tool_calls", none⟩

/-- C4 scenario: round 0 narrates and asks to continue; every later
call fails with an APIError. -/
def c4prov : Nat → ProviderResult :=
  fun i => if i == 0 then .ok narrResp else .apiError "down"

/-- C4 scenario: the completed turn. -/
def c4run : LLMService.TurnRes :=
  LLMService.process_user_input c4prov fixedOracle "hi" emptyLLM

/-- C5 scenario: a create_object call with no arguments at all. -/
def c5tc : ToolCall := ⟨"c1", "create_object", .obj []⟩

/-- C5 scenario: the response dispatching the malformed call. -/
def c5resp : ProviderResponse := ⟨⟨none, [c5tc]⟩, "stop", none⟩

/-- C5 scenario: the provider for the malformed dispatch. -/
def c5prov : Nat → ProviderResult := fun _ => .ok c5resp

/-- C5/C6 scenario: the session before the turn. -/
def freshSession : Session.SessionState := ⟨false, emptyLLM⟩

/-- C6 scenario: a session with a turn already in flight. -/
def busySession : Session.SessionState := ⟨true, emptyLLM⟩

/-- C6 scenario: a provider that narrates once and stops. -/
def c6prov : Nat → ProviderResult :=
  fun _ => .ok ⟨⟨none, [narrTc]⟩, "stop", some (100, 50)⟩

/-- C7 scenario: a modify_object spec addressing an absent name. -/
def c7data : JVal := .obj [("name", .str "ghost")]

/-- C9 scenario: a history of 21 user entries, which exceeds 20 after
the append. -/
def c9hist : List ChatMsg := List.replicate 21 (ChatMsg.user "x")

/-- C9 scenario: the service state with the long history. -/
def c9llm : LLMService.LLMState := ⟨{}, c9hist, {}⟩

/-- C10 scenario: the tool-call loop run on a single narrate call. -/
def c10run : Except PyExn (List WorldAction) × LLMService.LLMState :=
  LLMService.execToolCalls fixedOracle [narrTc] [] emptyLLM

/-- Witness scenario: the narrate round of the continuation witness run
through the shared round body. -/
def narrRoundRun : Except PyExn (List WorldAction) × LLMService.LLMState × Bool :=
  LLMService.runRound fixedOracle narrResp (LLMService.appendUserMessage "hi" emptyLLM)

/-- Witness scenario: the Actions of that round. -/
def narrRoundActs : List WorldAction :=
  match narrRoundRun with
  | (.ok a, _, _) => a
  | _ => []

/-- Witness scenario: the service state after that round. -/
def narrRoundState : LLMService.LLMState := narrRoundRun.2.1

/-- Witness scenario: a patch holding a target name and one environment
scalar, no object fields. -/
def c8data : JVal := .obj [("name", .str "a"), ("fog_near", .num 5)]

/-- Witness scenario: the stored object the patch targets. -/
def c8obj0 : WorldObject := { name := "a", children := [] }

/-- Witness scenario: a world holding that one object. -/
def c8st : WorldState := { objects := [("a", c8obj0)] }

/-- Witness scenario: the environment after the patch is applied. -/
def c8env2 : EnvironmentSettings := { fog_near := .num 5 }

/-- Witness scenario: the world after update_environment stores it. -/
def c8st3 : WorldState := { objects := [("a", c8obj0)], environment := c8env2 }

/-! General helper lemmas. -/

/-- Inversion of a successful Except bind. -/
theorem except_bind_ok {ε α β : Type} {x : Except ε α} {f : α → Except ε β}
    {b : β} (h : x >>= f = .ok b) : ∃ a, x = .ok a ∧ f a = .ok b := by
  cases x with
  | ok a => exact ⟨a, rfl, h⟩
  | error e => simp [Bind.bind, Except.bind] at h

/-- Inversion of a successful Except map. -/
theorem except_map_ok {ε α β : Type} {x : Except ε α} {f : α → β} {b : β}
    (h : x.map f = .ok b) : ∃ a, x = .ok a ∧ f a = b := by
  cases x with
  | ok a =>
    refine ⟨a, rfl, ?_⟩
    simpa [Except.map] using h
  | error e => simp [Except.map] at h

namespace PyDict

/-- After an overwriting assignment the key maps to the new value. -/
theorem get_set_over {α : Type} (d : List (String × α)) (k : String) (v : α)
    (h : mem d k = true) :
    get (d.map (fun p => if p.1 == k then (k, v) else p)) k = some v := by
  induction d with
  | nil => simp [mem] at h
  | cons p rest ih =>
    by_cases hp : p.1 == k
    · simp [get, List.find?, hp]
    · have hr : mem rest k = true := by
        simpa [mem, hp] using h
      simpa [get, List.find?, hp] using ih hr

/-- After an appending assignment the key maps to the new value. -/
theorem get_set_app {α : Type} (d : List (String × α)) (k : String) (v : α)
    (h : mem d k = false) : get (d ++ [(k, v)]) k = some v := by
  induction d with
  | nil => simp [get, List.find?]
  | cons p rest ih =>
    have hp : (p.1 == k) = false := by
      by_contra hc
      simp [mem, List.any_cons] at h
      exact absurd (beq_iff_eq.mp (eq_true_of_ne_false hc)) (by simpa using h.1)
    have hr : mem rest k = false := by
      simp [mem, List.any_cons] at h ⊢
      intro a b hab
      exact h.2 a b hab
    simpa [get, List.find?, hp] using ih hr

/-- Assignment stores the value under the key. -/
theorem get_set {α : Type} (d : List (String × α)) (k : String) (v : α) :
    get (set d k v) k = some v := by
  unfold set
  by_cases h : mem d k
  · simpa [h] using get_set_over d k v h
  · simpa [h] using get_set_app d k v (by simpa using h)

/-- An overwriting assignment does not change the key list. -/
theorem keys_set_over {α : Type} (d : List (String × α)) (k : String) (v : α) :
    (d.map (fun p => if p.1 == k then (k, v) else p)).map Prod.fst =
      d.map Prod.fst := by
  rw [List.map_map]
  refine List.map_congr_left ?_
  intro p _
  by_cases hp : p.1 == k
  · simp [Function.comp, hp, (beq_iff_eq.mp hp).symm]
  · simp [Function.comp, hp]

/-- The membership test agrees with key-list membership. -/
theorem mem_iff_keys {α : Type} (d : List (String × α)) (k : String) :
    mem d k = true ↔ k ∈ d.map Prod.fst := by
  induction d with
  | nil => simp [mem]
  | cons p rest ih =>
    simp only [mem, List.any_cons, List.map_cons, List.mem_cons]
    constructor
    · intro h
      rcases Bool.or_eq_true_iff.mp h with h1 | h2
      · exact Or.inl (beq_iff_eq.mp h1).symm
      · exact Or.inr (ih.mp h2)
    · intro h
      rcases h with h1 | h2
      · exact Bool.or_eq_true_iff.mpr (Or.inl (beq_iff_eq.mpr h1.symm))
      · exact Bool.or_eq_true_iff.mpr (Or.inr (ih.mpr h2))

/-- Assignment preserves key uniqueness. -/
theorem nodup_set {α : Type} (d : List (String × α)) (k : String) (v : α)
    (h : (d.map Prod.fst).Nodup) : ((set d k v).map Prod.fst).Nodup := by
  unfold set
  by_cases hm : mem d k
  · rw [if_pos hm, keys_set_over]
    exact h
  · rw [if_neg hm, List.map_append, List.nodup_append]
    refine ⟨h, List.nodup_singleton _, ?_⟩
    intro a ha hak
    have hak2 : a = k := by simpa using hak
    subst hak2
    exact (by simpa [hm] using (mem_iff_keys d a).mpr ha)

/-- Deletion preserves key uniqueness. -/
theorem nodup_del {α : Type} (d : List (String × α)) (k : String)
    (h : (d.map Prod.fst).Nodup) : ((del d k).map Prod.fst).Nodup :=
  ((List.filter_sublist d).map Prod.fst).nodup h

end PyDict

/-! Claim C7. -/

/-- C7: a modify_object call whose target name is absent from the object
map returns the not-found signal without raising an exception and leaves
the World State unchanged. -/
theorem modify_object_absent_is_noop (data : JVal) (st : WorldState)
    (h : (WorldStateManager.modKey data).bind
      (fun k => PyDict.get st.objects k) = none) :
    WorldStateManager.modify_object data st = (.ok none, st) := by
  unfold WorldStateManager.modify_object
  cases hk : WorldStateManager.modKey data with
  | none => rfl
  | some k =>
    have hg : PyDict.get st.objects k = none := by
      rw [hk] at h
      simpa using h
    simp [hg]

/-- C7 witness: modifying the absent name ghost in the empty world. -/
theorem modify_object_absent_is_noop_witness :
    (WorldStateManager.modKey c7data).bind
      (fun k => PyDict.get ({} : WorldState).objects k) = none ∧
    WorldStateManager.modify_object c7data {} = (.ok none, {}) :=
  ⟨rfl, modify_object_absent_is_noop c7data {} rfl⟩

/-! Claim C2. -/

/-- Projection fact about the continuation-splicing match of the round
functions. -/
theorem turnres_match_nextIdx (r : LLMService.TurnRes) (acts : List WorldAction) :
    (match r.result with
     | .ok more => (⟨.ok (acts ++ more), r.state, r.nextIdx⟩ : LLMService.TurnRes)
     | .error e => ⟨.error e, r.state, r.nextIdx⟩).nextIdx = r.nextIdx := by
  cases r.result <;> rfl

/-- Upper bound on the provider-call index of a continuation subtree. -/
theorem continue_generation_go_idx_le (p : Nat → ProviderResult) (o : Oracle) :
    ∀ fuel idx s,
      (LLMService.continue_generation_go p o fuel idx s).nextIdx ≤ idx + fuel := by
  intro fuel
  induction fuel with
  | zero =>
    intro idx s
    show idx ≤ idx + 0
    omega
  | succ n ih =>
    intro idx s
    unfold LLMService.continue_generation_go
    split
    · show idx + 1 ≤ idx + (n + 1)
      omega
    · split
      · show idx + 1 ≤ idx + (n + 1)
        omega
      · split
        · rw [turnres_match_nextIdx]
          exact le_trans (ih (idx + 1) _) (by omega)
        · show idx + 1 ≤ idx + (n + 1)
          omega

/-- C2: a turn makes at most 6 chat-completion calls in total (the
initial round plus at most 5 continuations) whatever the provider does,
and a continuation reaching depth 5 stops silently, adding no Action and
leaving the state untouched. -/
theorem turn_round_cap :
    (∀ p o text s, (LLMService.process_user_input p o text s).nextIdx ≤ 6) ∧
    (∀ p o depth idx s, depth ≥ 5 →
      LLMService.continue_generation p o depth idx s = ⟨.ok [], s, idx⟩) := by
  constructor
  · intro p o text s
    simp only [LLMService.process_user_input]
    split
    · show (1 : Nat) ≤ 6
      omega
    · split
      · show (1 : Nat) ≤ 6
        omega
      · split
        · rw [turnres_match_nextIdx]
          exact le_trans (continue_generation_go_idx_le p o 5 1 _) (by omega)
        · show (1 : Nat) ≤ 6
          omega
  · intro p o depth idx s hd
    unfold LLMService.continue_generation
    have h0 : 5 - depth = 0 := by omega
    rw [h0]
    rfl

/-- C2 witness: at depth 5 with the always-failing provider, the
continuation is a silent no-op, and the full turn consults the provider
only once. -/
theorem turn_round_cap_witness :
    (5 ≥ 5 ∧
      LLMService.continue_generation c2prov fixedOracle 5 7 emptyLLM =
        ⟨.ok [], emptyLLM, 7⟩) ∧
    (LLMService.process_user_input c2prov fixedOracle "hi" emptyLLM).nextIdx ≤ 6 :=
  ⟨⟨by omega, turn_round_cap.2 c2prov fixedOracle 5 7 emptyLLM (by omega)⟩,
    turn_round_cap.1 c2prov fixedOracle "hi" emptyLLM⟩

/-! Claim C4. -/

/-- C4 counterexample: with a provider that narrates in round 0 (asking
to continue) and fails with an APIError in round 1, the chat-completion
call fails in a round of the turn, yet the returned Action list holds
exactly the narration and no error Action at all; nextIdx = 2 shows the
failing second call was indeed made. -/
theorem continuation_failure_appends_no_error :
    c4run.result =
      .ok [{ type := "narration", name := none,
             data := .obj [("text", .str "hi")] }] ∧
    c4run.nextIdx = 2 :=
  ⟨rfl, rfl⟩

/-- C4 amended: an initial-round provider failure yields exactly one
error Action, no continuation, and the history exactly as already
appended; a continuation-round provider failure is swallowed: it appends
no error Action, stops recursing, and leaves state (history included)
unchanged. -/
theorem provider_failure_semantics :
    (∀ p o text s msg, p 0 = .apiError msg →
      LLMService.process_user_input p o text s =
        ⟨.ok [errorAction ("AI service error: " ++ msg)],
         LLMService.appendUserMessage text s, 1⟩) ∧
    (∀ p o depth idx s msg, depth < 5 → p idx = .apiError msg →
      LLMService.continue_generation p o depth idx s = ⟨.ok [], s, idx + 1⟩) := by
  constructor
  · intro p o text s msg hp
    unfold LLMService.process_user_input
    simp [hp]
  · intro p o depth idx s msg hd hp
    unfold LLMService.continue_generation
    obtain ⟨fuel, hf⟩ : ∃ fuel, 5 - depth = fuel + 1 := ⟨5 - depth - 1, by omega⟩
    rw [hf]
    unfold LLMService.continue_generation_go
    simp [hp]

/-- C4 witness: the initial round of the always-failing provider yields
the single error Action, and a depth-0 continuation under it is a silent
no-op. -/
theorem provider_failure_semantics_witness :
    (c2prov 0 = .apiError "down" ∧
      LLMService.process_user_input c2prov fixedOracle "hi" emptyLLM =
        ⟨.ok [errorAction "AI service error: down"],
         LLMService.appendUserMessage "hi" emptyLLM, 1⟩) ∧
    (0 < 5 ∧
      LLMService.continue_generation c2prov fixedOracle 0 3 emptyLLM =
        ⟨.ok [], emptyLLM, 4⟩) :=
  ⟨⟨rfl, provider_failure_semantics.1 c2prov fixedOracle "hi" emptyLLM "down" rfl⟩,
   ⟨by omega, provider_failure_semantics.2 c2prov fixedOracle 0 3 emptyLLM "down"
      (by omega) rfl⟩⟩

/-! Claim C3. -/

/-- A continuation flag of true forces finish_reason tool_calls and a
nonempty tool-call list. -/
theorem runRound_cont_finish (o : Oracle) (resp : ProviderResponse)
    (s : LLMService.LLMState) :
    (LLMService.runRound o resp s).2.2 = true →
      resp.finish_reason = "tool_calls" ∧ resp.message.tool_calls ≠ [] := by
  intro h
  unfold LLMService.runRound at h
  by_cases hemp : resp.message.tool_calls.isEmpty
  · rw [if_pos hemp] at h
    cases h
  · rw [if_neg hemp] at h
    rcases hex : LLMService.execToolCalls o resp.message.tool_calls []
        (LLMService.appendAssistant resp (LLMService.recordUsage resp s))
      with ⟨r3, s3⟩
    rw [hex] at h
    cases r3 with
    | error e => cases h
    | ok acts =>
      simp only at h
      refine ⟨beq_iff_eq.mp h, ?_⟩
      intro hnil
      rw [hnil] at hemp
      simp at hemp

/-- Every continuation subtree consults the provider at least from its
starting index. -/
theorem continue_generation_go_idx_ge (p : Nat → ProviderResult) (o : Oracle) :
    ∀ fuel idx s, idx ≤ (LLMService.continue_generation_go p o fuel idx s).nextIdx := by
  intro fuel
  induction fuel with
  | zero =>
    intro idx s
    show idx ≤ idx
    omega
  | succ n ih =>
    intro idx s
    unfold LLMService.continue_generation_go
    split
    · show idx ≤ idx + 1
      omega
    · split
      · show idx ≤ idx + 1
        omega
      · split
        · rw [turnres_match_nextIdx]
          exact le_trans (by omega) (ih (idx + 1) _)
        · show idx ≤ idx + 1
          omega

/-- A continuation level below the cap consults the provider once more. -/
theorem continue_generation_go_succ_ge (p : Nat → ProviderResult) (o : Oracle)
    (fuel idx : Nat) (s : LLMService.LLMState) :
    idx + 1 ≤ (LLMService.continue_generation_go p o (fuel + 1) idx s).nextIdx := by
  unfold LLMService.continue_generation_go
  split
  · show idx + 1 ≤ idx + 1
    omega
  · split
    · show idx + 1 ≤ idx + 1
      omega
    · split
      · rw [turnres_match_nextIdx]
        exact continue_generation_go_idx_ge p o fuel (idx + 1) _
      · show idx + 1 ≤ idx + 1
        omega

/-- C3 counterexample: the first round dispatches a mesh-generation call
that fails (producing an error Action) but finishes with reason stop;
no continuation round is performed (nextIdx stays 1), even though the
round produced an error Action — refuting the claim that an error Action
alone triggers a continuation. -/
theorem error_action_without_continuation :
    c3run.result = .ok [errorAction "Model generation failed: boom"] ∧
    c3run.nextIdx = 1 :=
  ⟨rfl, rfl⟩

/-- C3 amended: after a provider round, a continuation happens exactly
when the response finish_reason is tool_calls (with tool calls present
and the dispatch loop not raising); error Actions play no part in the
decision. -/
theorem continuation_iff_finish_reason :
    (∀ p o text s resp, p 0 = .ok resp → resp.finish_reason ≠ "tool_calls" →
      (LLMService.process_user_input p o text s).nextIdx = 1) ∧
    (∀ p o text s resp acts s2, p 0 = .ok resp →
      LLMService.runRound o resp (LLMService.appendUserMessage text s) =
        (.ok acts, s2, true) →
      2 ≤ (LLMService.process_user_input p o text s).nextIdx) := by
  constructor
  · intro p o text s resp hp hfr
    simp only [LLMService.process_user_input]
    split
    · rename_i msg heq
      simp [hp] at heq
    · rename_i r heq
      rw [hp] at heq
      cases heq
      rcases hrr : LLMService.runRound o resp (LLMService.appendUserMessage text s)
        with ⟨res, s2, cont⟩
      cases res with
      | error e => rfl
      | ok acts =>
        cases cont with
        | false => rfl
        | true =>
          exact absurd (runRound_cont_finish o resp _ (by rw [hrr])).1 hfr
  · intro p o text s resp acts s2 hp hrr
    simp only [LLMService.process_user_input]
    split
    · rename_i msg heq
      simp [hp] at heq
    · rename_i r heq
      rw [hp] at heq
      cases heq
      rw [hrr]
      simp only [eq_self_iff_true, if_true]
      rw [turnres_match_nextIdx]
      exact continue_generation_go_succ_ge p o 4 1 s2

/-- C3 witness: a stop-finishing round leaves nextIdx at 1, and a
tool_calls-finishing narrate round forces a second provider call. -/
theorem continuation_iff_finish_reason_witness :
    (c3prov 0 = .ok c3resp ∧ c3resp.finish_reason ≠ "tool_calls" ∧
      (LLMService.process_user_input c3prov c3oracle "make a dragon" emptyLLM).nextIdx = 1) ∧
    (c4prov 0 = .ok narrResp ∧
      LLMService.runRound fixedOracle narrResp
        (LLMService.appendUserMessage "hi" emptyLLM) =
        (.ok narrRoundActs, narrRoundState, true) ∧
      2 ≤ (LLMService.process_user_input c4prov fixedOracle "hi" emptyLLM).nextIdx) :=
  ⟨⟨rfl, by decide,
    continuation_iff_finish_reason.1 c3prov c3oracle "make a dragon" emptyLLM c3resp
      rfl (by decide)⟩,
   ⟨rfl, rfl,
    continuation_iff_finish_reason.2 c4prov fixedOracle "hi" emptyLLM narrResp
      narrRoundActs narrRoundState rfl rfl⟩⟩

/-! Claim C5. -/

/-- C5 counterexample: dispatching a create_object tool call with no
arguments raises a KeyError that escapes process_user_input entirely —
the turn does not degrade the dispatch exception into an error Action,
refuting the claim that no tool-level failure is raised past the
orchestrator. -/
theorem dispatch_exception_escapes :
    (LLMService.process_user_input c5prov fixedOracle "hi" emptyLLM).result =
      .error (.keyError "name") :=
  rfl

/-- C5 amended: an unrecognized tool name degrades to the documented
Unknown-tool error Action without touching the world, but an exception
thrown during dispatch (for example a KeyError on a missing required
argument) propagates out of the orchestrator; the Session boundary
catches it, reports it as a generic error event, and clears the busy
flag. -/
theorem tool_failure_propagation :
    (∀ (oracle : Oracle) (name : String) (input : JVal) (w : WorldState),
      name ∉ ["create_object", "modify_object", "remove_object",
              "set_environment", "create_terrain", "generate_3d_model",
              "narrate"] →
      LLMService.execute_tool oracle name input w =
        (.ok (errorAction ("Unknown tool: " ++ name)), w)) ∧
    (∀ p o text ss e, ss.processing = false →
      (LLMService.process_user_input p o text
        { ss.llm with world := WorldStateManager.increment_turn ss.llm.world }).result =
          .error e →
      Session.process_input p o text ss =
        ([Session.statusEv "Imagining your world...",
          ⟨"error", .obj [("message", .str (Session.pyExnStr e))]⟩],
         ⟨false, (LLMService.process_user_input p o text
           { ss.llm with world := WorldStateManager.increment_turn ss.llm.world }).state⟩)) := by
  constructor
  · intro oracle name input w hn
    simp only [List.mem_cons, List.not_mem_nil, or_false, not_or] at hn
    obtain ⟨n1, n2, n3, n4, n5, n6, n7⟩ := hn
    simp [LLMService.execute_tool, n1, n2, n3, n4, n5, n6, n7]
  · intro p o text ss e hb hres
    simp only [Session.process_input, hb, Bool.false_eq_true, if_false]
    rw [hres]

/-- C5 witness: the unknown tool bogus yields the Unknown-tool error
Action, and the no-argument create_object turn surfaces its KeyError as
a Session-level generic error event. -/
theorem tool_failure_propagation_witness :
    ("bogus" ∉ ["create_object", "modify_object", "remove_object",
                "set_environment", "create_terrain", "generate_3d_model",
                "narrate"] ∧
      LLMService.execute_tool fixedOracle "bogus" (.obj []) {} =
        (.ok (errorAction "Unknown tool: bogus"), {})) ∧
    (freshSession.processing = false ∧
      (LLMService.process_user_input c5prov fixedOracle "hi"
        { freshSession.llm with
          world := WorldStateManager.increment_turn freshSession.llm.world }).result =
        .error (.keyError "name") ∧
      Session.process_input c5prov fixedOracle "hi" freshSession =
        ([Session.statusEv "Imagining your world...",
          ⟨"error", .obj [("message", .str (Session.pyExnStr (.keyError "name")))]⟩],
         ⟨false, (LLMService.process_user_input c5prov fixedOracle "hi"
           { freshSession.llm with
             world := WorldStateManager.increment_turn freshSession.llm.world }).state⟩)) :=
  ⟨⟨by decide, tool_failure_propagation.1 fixedOracle "bogus" (.obj []) {} (by decide)⟩,
   ⟨rfl, rfl,
    tool_failure_propagation.2 c5prov fixedOracle "hi" freshSession (.keyError "name")
      rfl rfl⟩⟩

/-! Claim C1. -/

/-- Structure of every successful create_object call: the stored object
carries the resolved name and is written under it. -/
theorem create_object_ok_inv (uuid : Nat → String) (data : JVal)
    (st : WorldState) (obj : WorldObject) (st2 : WorldState)
    (h : WorldStateManager.create_object uuid data st = .ok (obj, st2)) :
    ∃ name, WorldStateManager.resolved_name uuid data st = .ok name ∧
      obj.name = name ∧ st2.objects = PyDict.set st.objects name obj := by
  unfold WorldStateManager.create_object at h
  obtain ⟨name, h1, h⟩ := except_bind_ok h
  refine ⟨name, h1, ?_⟩
  obtain ⟨descr, h2, h⟩ := except_bind_ok h
  obtain ⟨pos, h3, h⟩ := except_bind_ok h
  obtain ⟨rot, h4, h⟩ := except_bind_ok h
  obtain ⟨sc, h5, h⟩ := except_bind_ok h
  obtain ⟨geo, h6, h⟩ := except_bind_ok h
  obtain ⟨mat, h7, h⟩ := except_bind_ok h
  obtain ⟨phy, h8, h⟩ := except_bind_ok h
  obtain ⟨anim, h9, h⟩ := except_bind_ok h
  obtain ⟨cspecs, h10, h⟩ := except_bind_ok h
  obtain ⟨children, h11, h⟩ := except_bind_ok h
  simp only [Except.ok.injEq, Prod.mk.injEq] at h
  obtain ⟨hobj, hst⟩ := h
  subst hobj
  subst hst
  exact ⟨rfl, rfl⟩

/-- C1: names are pairwise unique in every reachable World State (the
object dict is keyed by name and every operation preserves key
uniqueness), and a create_object call whose requested name already
exists stores its object under the suffix-adjusted name, which differs
from the requested one. -/
theorem world_state_name_uniqueness :
    (∀ (uuid : Nat → String) (data : JVal) (st : WorldState) (reqName : String)
        (obj : WorldObject) (st2 : WorldState),
      data.lookup "name" = some (.str reqName) →
      PyDict.mem st.objects reqName = true →
      WorldStateManager.create_object uuid data st = .ok (obj, st2) →
      obj.name = reqName ++ "_" ++ (uuid 0).take 6 ∧
      obj.name ≠ reqName ∧
      PyDict.get st2.objects obj.name = some obj ∧
      st2.objects = PyDict.set st.objects obj.name obj) ∧
    (∀ uuid data st obj st2,
      WorldStateManager.create_object uuid data st = .ok (obj, st2) →
      (st.objects.map Prod.fst).Nodup → (st2.objects.map Prod.fst).Nodup) ∧
    (∀ data st, (st.objects.map Prod.fst).Nodup →
      (((WorldStateManager.modify_object data st).2.objects.map Prod.fst).Nodup)) ∧
    (∀ name st, (st.objects.map Prod.fst).Nodup →
      (((WorldStateManager.remove_object name st).2.objects.map Prod.fst).Nodup)) ∧
    (∀ data st, (WorldStateManager.update_environment data st).2.objects = st.objects) ∧
    (∀ data st, (WorldStateManager.add_terrain data st).2.objects = st.objects) ∧
    (∀ t st, (WorldStateManager.add_narrative t st).objects = st.objects) ∧
    (∀ st, (WorldStateManager.increment_turn st).objects = st.objects) := by
  refine ⟨?_, ?_, ?_, ?_, ?_, ?_, ?_, ?_⟩
  · intro uuid data st reqName obj st2 hname hmem hok
    obtain ⟨name, hrn, hobjname, hst2⟩ := create_object_ok_inv uuid data st obj st2 hok
    have hitem : data.item "name" = .ok (.str reqName) := by
      simp [JVal.item, hname]
    have hn : name = reqName ++ "_" ++ (uuid 0).take 6 := by
      unfold WorldStateManager.resolved_name at hrn
      rw [hitem] at hrn
      have : pyStr (.str reqName) = .ok reqName := rfl
      rw [show ((data.item "name" : Except PyExn JVal)) = .ok (.str reqName) from hitem] at *
      simp [pyStr, Bind.bind, Except.bind, hmem] at hrn
      exact hrn.symm
    have hne : reqName ++ "_" ++ (uuid 0).take 6 ≠ reqName := by
      intro heq
      have hl := congrArg String.length heq
      rw [String.length_append, String.length_append] at hl
      have h1 : ("_" : String).length = 1 := rfl
      rw [h1] at hl
      omega
    refine ⟨by rw [hobjname, hn], by rw [hobjname, hn]; exact hne, ?_, ?_⟩
    · rw [hst2, hobjname]
      rw [hn] at hobjname ⊢
      rw [← hobjname]
      exact PyDict.get_set st.objects obj.name obj
    · rw [hst2, hobjname]
  · intro uuid data st obj st2 hok hnd
    obtain ⟨name, _, _, hst2⟩ := create_object_ok_inv uuid data st obj st2 hok
    rw [hst2]
    exact PyDict.nodup_set st.objects name obj hnd
  · intro data st hnd
    unfold WorldStateManager.modify_object
    split
    · exact hnd
    · split
      · exact hnd
      · split
        · exact PyDict.nodup_set st.objects _ _ hnd
        · exact PyDict.nodup_set st.objects _ _ hnd
  · intro name st hnd
    unfold WorldStateManager.remove_object
    split
    · exact PyDict.nodup_del st.objects name hnd
    · exact hnd
  · intro data st
    unfold WorldStateManager.update_environment
    split
    · rfl
    · rfl
  · intro data st
    unfold WorldStateManager.add_terrain
    split
    · rfl
    · rfl
  · intro t st
    unfold WorldStateManager.add_narrative
    rfl
  · intro st
    rfl

/-- C1 witness: creating a second object named tree stores it under the
suffixed name tree_abcdef, distinct from tree. -/
theorem world_state_name_uniqueness_witness :
    c1data.lookup "name" = some (.str "tree") ∧
    PyDict.mem c1st.objects "tree" = true ∧
    WorldStateManager.create_object fixedOracle.uuidHex c1data c1st =
      .ok (c1obj, c1st2) ∧
    (c1obj.name = "tree" ++ "_" ++ ((fixedOracle.uuidHex 0).take 6) ∧
     c1obj.name ≠ "tree" ∧
     PyDict.get c1st2.objects c1obj.name = some c1obj ∧
     c1st2.objects = PyDict.set c1st.objects c1obj.name c1obj) :=
  ⟨rfl, rfl, rfl,
   world_state_name_uniqueness.1 fixedOracle.uuidHex c1data c1st "tree" c1obj c1st2
     rfl rfl rfl⟩

/-! Claim C9. -/

/-- Usage recording does not touch the conversation history. -/
theorem recordUsage_hist (resp : ProviderResponse) (s : LLMService.LLMState) :
    (LLMService.recordUsage resp s).conversation_history =
      s.conversation_history := by
  unfold LLMService.recordUsage
  split <;> rfl

/-- The tool-call loop only appends to the conversation history. -/
theorem execToolCalls_hist (o : Oracle) :
    ∀ tcs acc (s : LLMService.LLMState), ∃ t,
      (LLMService.execToolCalls o tcs acc s).2.conversation_history =
        s.conversation_history ++ t := by
  intro tcs
  induction tcs with
  | nil =>
    intro acc s
    exact ⟨[], by simp [LLMService.execToolCalls]⟩
  | cons tc rest ih =>
    intro acc s
    simp only [LLMService.execToolCalls]
    split
    · exact ⟨[], by simp⟩
    · rename_i a w2 heq
      obtain ⟨t2, ht2⟩ := ih (acc ++ [a])
        ⟨w2, s.conversation_history ++
          [ChatMsg.tool tc.id (LLMService.toolResultContent a)], s.cost_tracker⟩
      refine ⟨ChatMsg.tool tc.id (LLMService.toolResultContent a) :: t2, ?_⟩
      rw [ht2]
      simp

/-- Round equation: a response with no tool calls. -/
theorem runRound_eq_empty (o : Oracle) (resp : ProviderResponse)
    (s : LLMService.LLMState) (h : resp.message.tool_calls.isEmpty = true) :
    LLMService.runRound o resp s =
      (.ok [], LLMService.appendAssistant resp (LLMService.recordUsage resp s),
       false) := by
  simp only [LLMService.runRound, h, if_true]

/-- Round equation: the dispatch loop raised. -/
theorem runRound_eq_error (o : Oracle) (resp : ProviderResponse)
    (s : LLMService.LLMState) (e : PyExn) (s3 : LLMService.LLMState)
    (hemp : resp.message.tool_calls.isEmpty = false)
    (hex : LLMService.execToolCalls o resp.message.tool_calls []
      (LLMService.appendAssistant resp (LLMService.recordUsage resp s)) =
      (.error e, s3)) :
    LLMService.runRound o resp s = (.error e, s3, false) := by
  simp only [LLMService.runRound, hemp, Bool.false_eq_true, if_false, hex]

/-- Round equation: the dispatch loop succeeded. -/
theorem runRound_eq_ok (o : Oracle) (resp : ProviderResponse)
    (s : LLMService.LLMState) (acts : List WorldAction)
    (s3 : LLMService.LLMState)
    (hemp : resp.message.tool_calls.isEmpty = false)
    (hex : LLMService.execToolCalls o resp.message.tool_calls []
      (LLMService.appendAssistant resp (LLMService.recordUsage resp s)) =
      (.ok acts, s3)) :
    LLMService.runRound o resp s =
      (.ok acts, s3, resp.finish_reason == "tool_calls") := by
  simp only [LLMService.runRound, hemp, Bool.false_eq_true, if_false, hex]

/-- One provider-round body only appends to the conversation history. -/
theorem runRound_hist (o : Oracle) (resp : ProviderResponse)
    (s : LLMService.LLMState) :
    ∃ t, (LLMService.runRound o resp s).2.1.conversation_history =
      s.conversation_history ++ t := by
  have hA : (LLMService.appendAssistant resp
      (LLMService.recordUsage resp s)).conversation_history =
      s.conversation_history ++
        [ChatMsg.assistant resp.message.content resp.message.tool_calls] := by
    unfold LLMService.appendAssistant
    rw [recordUsage_hist]
  by_cases hemp : resp.message.tool_calls.isEmpty
  · rw [runRound_eq_empty o resp s hemp]
    exact ⟨_, hA⟩
  · rcases hex : LLMService.execToolCalls o resp.message.tool_calls []
      (LLMService.appendAssistant resp (LLMService.recordUsage resp s))
      with ⟨res, s3⟩
    obtain ⟨t, ht⟩ := execToolCalls_hist o resp.message.tool_calls []
      (LLMService.appendAssistant resp (LLMService.recordUsage resp s))
    rw [hex] at ht
    simp only at ht
    cases res with
    | error e =>
      rw [runRound_eq_error o resp s e s3 (by simpa using hemp) hex]
      refine ⟨ChatMsg.assistant resp.message.content resp.message.tool_calls :: t,
        ?_⟩
      show s3.conversation_history = _
      rw [ht, hA]
      simp
    | ok acts =>
      rw [runRound_eq_ok o resp s acts s3 (by simpa using hemp) hex]
      refine ⟨ChatMsg.assistant resp.message.content resp.message.tool_calls :: t,
        ?_⟩
      show s3.conversation_history = _
      rw [ht, hA]
      simp

/-- Projection fact about the continuation-splicing match and the final
state. -/
theorem turnres_match_state (r : LLMService.TurnRes) (acts : List WorldAction) :
    (match r.result with
     | .ok more => (⟨.ok (acts ++ more), r.state, r.nextIdx⟩ : LLMService.TurnRes)
     | .error e => ⟨.error e, r.state, r.nextIdx⟩).state = r.state := by
  cases r.result <;> rfl

/-- Continuation-engine equation: the provider call failed. -/
theorem go_succ_apiError (p : Nat → ProviderResult) (o : Oracle)
    (n idx : Nat) (s : LLMService.LLMState) (m : String)
    (hp : p idx = .apiError m) :
    LLMService.continue_generation_go p o (n + 1) idx s = ⟨.ok [], s, idx + 1⟩ := by
  simp only [LLMService.continue_generation_go, hp]

/-- Continuation-engine equation: the dispatch loop raised. -/
theorem go_succ_roundError (p : Nat → ProviderResult) (o : Oracle)
    (n idx : Nat) (s : LLMService.LLMState) (resp : ProviderResponse)
    (e : PyExn) (s2 : LLMService.LLMState) (b : Bool)
    (hp : p idx = .ok resp)
    (hrr : LLMService.runRound o resp s = (.error e, s2, b)) :
    LLMService.continue_generation_go p o (n + 1) idx s =
      ⟨.error e, s2, idx + 1⟩ := by
  simp only [LLMService.continue_generation_go, hp, hrr]

/-- Continuation-engine equation: the round succeeded without asking to
continue. -/
theorem go_succ_ok_stop (p : Nat → ProviderResult) (o : Oracle)
    (n idx : Nat) (s : LLMService.LLMState) (resp : ProviderResponse)
    (acts : List WorldAction) (s2 : LLMService.LLMState)
    (hp : p idx = .ok resp)
    (hrr : LLMService.runRound o resp s = (.ok acts, s2, false)) :
    LLMService.continue_generation_go p o (n + 1) idx s =
      ⟨.ok acts, s2, idx + 1⟩ := by
  simp only [LLMService.continue_generation_go, hp, hrr, Bool.false_eq_true,
    if_false]

/-- Continuation-engine equation for the final state when the round asks
to continue. -/
theorem go_succ_ok_cont_state (p : Nat → ProviderResult) (o : Oracle)
    (n idx : Nat) (s : LLMService.LLMState) (resp : ProviderResponse)
    (acts : List WorldAction) (s2 : LLMService.LLMState)
    (hp : p idx = .ok resp)
    (hrr : LLMService.runRound o resp s = (.ok acts, s2, true)) :
    (LLMService.continue_generation_go p o (n + 1) idx s).state =
      (LLMService.continue_generation_go p o n (idx + 1) s2).state := by
  simp only [LLMService.continue_generation_go, hp, hrr, eq_self_iff_true,
    if_true]
  rw [turnres_match_state]

/-- A continuation subtree only appends to the conversation history. -/
theorem continue_generation_go_hist (p : Nat → ProviderResult) (o : Oracle) :
    ∀ fuel idx (s : LLMService.LLMState), ∃ t,
      (LLMService.continue_generation_go p o fuel idx s).state.conversation_history =
        s.conversation_history ++ t := by
  intro fuel
  induction fuel with
  | zero =>
    intro idx s
    exact ⟨[], by simp [LLMService.continue_generation_go]⟩
  | succ n ih =>
    intro idx s
    cases hp : p idx with
    | apiError m =>
      rw [go_succ_apiError p o n idx s m hp]
      exact ⟨[], by simp⟩
    | ok resp =>
      rcases hrr : LLMService.runRound o resp s with ⟨res, s2, cont⟩
      obtain ⟨t1, ht1⟩ := runRound_hist o resp s
      rw [hrr] at ht1
      simp only at ht1
      cases res with
      | error e =>
        rw [go_succ_roundError p o n idx s resp e s2 cont hp hrr]
        exact ⟨t1, ht1⟩
      | ok acts =>
        cases cont with
        | false =>
          rw [go_succ_ok_stop p o n idx s resp acts s2 hp hrr]
          exact ⟨t1, ht1⟩
        | true =>
          obtain ⟨t2, ht2⟩ := ih (idx + 1) s2
          refine ⟨t1 ++ t2, ?_⟩
          rw [go_succ_ok_cont_state p o n idx s resp acts s2 hp hrr, ht2, ht1]
          simp

/-- C9: whenever appending the user message makes the history longer
than 20 entries, it is trimmed from the front to exactly the 16 most
recent entries in their original relative order (a suffix of the
untrimmed sequence); otherwise the append is untrimmed — and every other
history manipulation of a turn merely appends entries at the end. -/
theorem history_trim_policy :
    (∀ text (s : LLMService.LLMState), 20 < s.conversation_history.length + 1 →
      (LLMService.appendUserMessage text s).conversation_history =
        (s.conversation_history ++
          [ChatMsg.user (LLMService.user_message_of text s)]).drop
          (s.conversation_history.length + 1 - 16) ∧
      (LLMService.appendUserMessage text s).conversation_history.length = 16 ∧
      ∃ dropped,
        s.conversation_history ++ [ChatMsg.user (LLMService.user_message_of text s)] =
          dropped ++ (LLMService.appendUserMessage text s).conversation_history) ∧
    (∀ text (s : LLMService.LLMState), s.conversation_history.length + 1 ≤ 20 →
      (LLMService.appendUserMessage text s).conversation_history =
        s.conversation_history ++ [ChatMsg.user (LLMService.user_message_of text s)]) ∧
    (∀ (o : Oracle) tcs acc (s : LLMService.LLMState), ∃ t,
      (LLMService.execToolCalls o tcs acc s).2.conversation_history =
        s.conversation_history ++ t) ∧
    (∀ p (o : Oracle) fuel idx (s : LLMService.LLMState), ∃ t,
      (LLMService.continue_generation_go p o fuel idx s).state.conversation_history =
        s.conversation_history ++ t) := by
  have happ : ∀ text (s : LLMService.LLMState),
      (s.conversation_history ++
        [ChatMsg.user (LLMService.user_message_of text s)]).length =
      s.conversation_history.length + 1 := by
    intro text s
    simp
  refine ⟨?_, ?_, execToolCalls_hist, continue_generation_go_hist⟩
  · intro text s h
    have hgt : (s.conversation_history ++
        [ChatMsg.user (LLMService.user_message_of text s)]).length > 20 := by
      rw [happ]
      omega
    have hres : (LLMService.appendUserMessage text s).conversation_history =
        (s.conversation_history ++
          [ChatMsg.user (LLMService.user_message_of text s)]).drop
          (s.conversation_history.length + 1 - 16) := by
      simp only [LLMService.appendUserMessage]
      rw [if_pos hgt, happ]
    refine ⟨hres, ?_, ?_⟩
    · rw [hres, List.length_drop, happ]
      omega
    · refine ⟨(s.conversation_history ++
        [ChatMsg.user (LLMService.user_message_of text s)]).take
          (s.conversation_history.length + 1 - 16), ?_⟩
      rw [hres]
      exact (List.take_append_drop _ _).symm
  · intro text s h
    simp only [LLMService.appendUserMessage]
    rw [if_neg]
    rw [happ]
    omega

/-- C9 witness: a 21-entry history is trimmed to 16 after the append; a
short history is appended untrimmed. -/
theorem history_trim_policy_witness :
    (20 < c9llm.conversation_history.length + 1 ∧
      (LLMService.appendUserMessage "x" c9llm).conversation_history.length = 16) ∧
    (emptyLLM.conversation_history.length + 1 ≤ 20 ∧
      (LLMService.appendUserMessage "x" emptyLLM).conversation_history =
        [ChatMsg.user (LLMService.user_message_of "x" emptyLLM)]) :=
  ⟨⟨by simp [c9llm, c9hist], (history_trim_policy.1 "x" c9llm (by simp [c9llm, c9hist])).2.1⟩,
   ⟨by simp [emptyLLM],
    by simpa using history_trim_policy.2.1 "x" emptyLLM (by simp [emptyLLM])⟩⟩

/-! Claim C6. -/

/-- The eight action types the Session event loop recognizes. -/
def handledTypes : List String :=
  ["object_created", "object_modified", "object_removed",
   "environment_updated", "terrain_created", "narration",
   "model_uploaded", "error"]

/-- Every Action the dispatcher returns carries one of the eight
recognized types. -/
theorem genModelAction_type (o : Oracle) (input : JVal) (code : JVal) :
    (LLMService.genModelAction o input code).type ∈ handledTypes := by
  simp only [LLMService.genModelAction]
  split
  · split <;> simp [handledTypes, errorAction]
  · simp [handledTypes, errorAction]

/-- Every Action the dispatcher returns carries one of the eight
recognized types (continued). -/
theorem execute_tool_type (o : Oracle) (name : String) (input : JVal)
    (w : WorldState) (a : WorldAction) (w2 : WorldState)
    (h : LLMService.execute_tool o name input w = (.ok a, w2)) :
    a.type ∈ handledTypes := by
  unfold LLMService.execute_tool at h
  by_cases h1 : (name == "create_object") = true
  · rw [if_pos h1] at h
    cases hc : WorldStateManager.create_object o.uuidHex input w with
    | ok pr =>
      rw [hc] at h
      simp only [Prod.mk.injEq, Except.ok.injEq] at h
      rw [← h.1]
      simp [handledTypes]
    | error e =>
      rw [hc] at h
      simp at h
  · rw [if_neg h1] at h
    by_cases h2 : (name == "modify_object") = true
    · rw [if_pos h2] at h
      rcases hc : WorldStateManager.modify_object input w with ⟨res, w3⟩
      rw [hc] at h
      rcases res with e | mo
      · simp at h
      · cases mo with
        | some obj =>
          simp only [Prod.mk.injEq, Except.ok.injEq] at h
          rw [← h.1]
          simp [handledTypes]
        | none =>
          simp only [Prod.mk.injEq, Except.ok.injEq] at h
          rw [← h.1]
          simp [handledTypes, errorAction]
    · rw [if_neg h2] at h
      by_cases h3 : (name == "remove_object") = true
      · rw [if_pos h3] at h
        cases hc : input.item "name" with
        | ok nameV =>
          rw [hc] at h
          simp only [Prod.mk.injEq, Except.ok.injEq] at h
          rw [← h.1]
          by_cases hf : (match nameV with
            | .str s => WorldStateManager.remove_object s w
            | _ => (false, w)).1
          · simp [hf, handledTypes]
          · simp [hf, handledTypes]
        | error e =>
          rw [hc] at h
          simp at h
      · rw [if_neg h3] at h
        by_cases h4 : (name == "set_environment") = true
        · rw [if_pos h4] at h
          rcases hc : WorldStateManager.update_environment input w with ⟨res, w3⟩
          rw [hc] at h
          rcases res with e | env
          · simp at h
          · simp only [Prod.mk.injEq, Except.ok.injEq] at h
            rw [← h.1]
            simp [handledTypes]
        · rw [if_neg h4] at h
          by_cases h5 : (name == "create_terrain") = true
          · rw [if_pos h5] at h
            rcases hc : WorldStateManager.add_terrain input w with ⟨res, w3⟩
            rw [hc] at h
            rcases res with e | t
            · simp at h
            · simp only [Prod.mk.injEq, Except.ok.injEq] at h
              rw [← h.1]
              simp [handledTypes]
          · rw [if_neg h5] at h
            by_cases h6 : (name == "generate_3d_model") = true
            · rw [if_pos h6] at h
              cases hc : input.item "code" with
              | ok code =>
                rw [hc] at h
                simp only [Prod.mk.injEq, Except.ok.injEq] at h
                rw [← h.1]
                exact genModelAction_type o input code
              | error e =>
                rw [hc] at h
                simp at h
            · rw [if_neg h6] at h
              by_cases h7 : (name == "narrate") = true
              · rw [if_pos h7] at h
                cases hc : input.item "text" with
                | ok text =>
                  rw [hc] at h
                  simp only [Prod.mk.injEq, Except.ok.injEq] at h
                  rw [← h.1]
                  simp [handledTypes]
                | error e =>
                  rw [hc] at h
                  simp at h
              · rw [if_neg h7] at h
                simp only [Prod.mk.injEq, Except.ok.injEq] at h
                rw [← h.1]
                simp [handledTypes, errorAction]

/-- The tool-call loop preserves recognized types across the
accumulator. -/
theorem execToolCalls_types (o : Oracle) :
    ∀ tcs acc (s : LLMService.LLMState) acts s2,
      LLMService.execToolCalls o tcs acc s = (.ok acts, s2) →
      (∀ x ∈ acc, x.type ∈ handledTypes) →
      ∀ x ∈ acts, x.type ∈ handledTypes := by
  intro tcs
  induction tcs with
  | nil =>
    intro acc s acts s2 h hacc
    simp only [LLMService.execToolCalls, Prod.mk.injEq, Except.ok.injEq] at h
    rw [← h.1]
    exact hacc
  | cons tc rest ih =>
    intro acc s acts s2 h hacc
    simp only [LLMService.execToolCalls] at h
    rcases hex : LLMService.execute_tool o tc.name tc.arguments s.world with ⟨res, w2⟩
    rw [hex] at h
    cases res with
    | error e => simp at h
    | ok a =>
      simp only at h
      refine ih (acc ++ [a]) _ acts s2 h ?_
      intro x hx
      rcases List.mem_append.mp hx with hxa | hxs
      · exact hacc x hxa
      · have : x = a := by simpa using hxs
        rw [this]
        exact execute_tool_type o tc.name tc.arguments s.world a w2 hex

/-- Every Action of a successful round has a recognized type. -/
theorem runRound_types (o : Oracle) (resp : ProviderResponse)
    (s : LLMService.LLMState) (acts : List WorldAction)
    (s2 : LLMService.LLMState) (cont : Bool)
    (h : LLMService.runRound o resp s = (.ok acts, s2, cont)) :
    ∀ x ∈ acts, x.type ∈ handledTypes := by
  by_cases hemp : resp.message.tool_calls.isEmpty
  · rw [runRound_eq_empty o resp s hemp] at h
    simp only [Prod.mk.injEq, Except.ok.injEq] at h
    rw [← h.1]
    intro x hx
    simp at hx
  · rcases hex : LLMService.execToolCalls o resp.message.tool_calls []
      (LLMService.appendAssistant resp (LLMService.recordUsage resp s))
      with ⟨res, s3⟩
    cases res with
    | error e =>
      rw [runRound_eq_error o resp s e s3 (by simpa using hemp) hex] at h
      simp at h
    | ok acts1 =>
      rw [runRound_eq_ok o resp s acts1 s3 (by simpa using hemp) hex] at h
      simp only [Prod.mk.injEq, Except.ok.injEq] at h
      rw [← h.1]
      exact execToolCalls_types o resp.message.tool_calls [] _ acts1 s3 hex
        (by intro x hx; simp at hx)

/-- Continuation-engine equation for the result when the round asks to
continue and the subtree succeeds. -/
theorem go_succ_ok_cont_result_ok (p : Nat → ProviderResult) (o : Oracle)
    (n idx : Nat) (s : LLMService.LLMState) (resp : ProviderResponse)
    (acts : List WorldAction) (s2 : LLMService.LLMState)
    (more : List WorldAction)
    (hp : p idx = .ok resp)
    (hrr : LLMService.runRound o resp s = (.ok acts, s2, true))
    (hmore : (LLMService.continue_generation_go p o n (idx + 1) s2).result =
      .ok more) :
    (LLMService.continue_generation_go p o (n + 1) idx s).result =
      .ok (acts ++ more) := by
  simp only [LLMService.continue_generation_go, hp, hrr, eq_self_iff_true,
    if_true, hmore]

/-- Continuation-engine equation for the result when the subtree raised. -/
theorem go_succ_ok_cont_result_error (p : Nat → ProviderResult) (o : Oracle)
    (n idx : Nat) (s : LLMService.LLMState) (resp : ProviderResponse)
    (acts : List WorldAction) (s2 : LLMService.LLMState) (e : PyExn)
    (hp : p idx = .ok resp)
    (hrr : LLMService.runRound o resp s = (.ok acts, s2, true))
    (herr : (LLMService.continue_generation_go p o n (idx + 1) s2).result =
      .error e) :
    (LLMService.continue_generation_go p o (n + 1) idx s).result = .error e := by
  simp only [LLMService.continue_generation_go, hp, hrr, eq_self_iff_true,
    if_true, herr]

/-- Every Action of a successful continuation subtree has a recognized
type. -/
theorem continue_generation_go_types (p : Nat → ProviderResult) (o : Oracle) :
    ∀ fuel idx (s : LLMService.LLMState) acts,
      (LLMService.continue_generation_go p o fuel idx s).result = .ok acts →
      ∀ x ∈ acts, x.type ∈ handledTypes := by
  intro fuel
  induction fuel with
  | zero =>
    intro idx s acts h x hx
    simp only [LLMService.continue_generation_go, Except.ok.injEq] at h
    rw [← h] at hx
    simp at hx
  | succ n ih =>
    intro idx s acts h x hx
    cases hp : p idx with
    | apiError m =>
      rw [go_succ_apiError p o n idx s m hp] at h
      simp only [Except.ok.injEq] at h
      rw [← h] at hx
      simp at hx
    | ok resp =>
      rcases hrr : LLMService.runRound o resp s with ⟨res, s2, cont⟩
      cases res with
      | error e =>
        rw [go_succ_roundError p o n idx s resp e s2 cont hp hrr] at h
        simp at h
      | ok acts1 =>
        cases cont with
        | false =>
          rw [go_succ_ok_stop p o n idx s resp acts1 s2 hp hrr] at h
          simp only [Except.ok.injEq] at h
          rw [← h] at hx
          exact runRound_types o resp s acts1 s2 false hrr x hx
        | true =>
          cases hres2 : (LLMService.continue_generation_go p o n (idx + 1) s2).result with
          | ok more =>
            rw [go_succ_ok_cont_result_ok p o n idx s resp acts1 s2 more hp hrr hres2]
              at h
            simp only [Except.ok.injEq] at h
            rw [← h] at hx
            rcases List.mem_append.mp hx with h1 | h2
            · exact runRound_types o resp s acts1 s2 true hrr x h1
            · exact ih (idx + 1) s2 more hres2 x h2
          | error e =>
            rw [go_succ_ok_cont_result_error p o n idx s resp acts1 s2 e hp hrr hres2]
              at h
            simp at h

/-- Every Action of a successful turn has a recognized type. -/
theorem process_user_input_types (p : Nat → ProviderResult) (o : Oracle)
    (text : String) (s : LLMService.LLMState) (acts : List WorldAction)
    (h : (LLMService.process_user_input p o text s).result = .ok acts) :
    ∀ x ∈ acts, x.type ∈ handledTypes := by
  simp only [LLMService.process_user_input] at h
  cases hp : p 0 with
  | apiError m =>
    rw [hp] at h
    simp only [Except.ok.injEq] at h
    intro x hx
    rw [← h] at hx
    have : x = errorAction ("AI service error: " ++ m) := by simpa using hx
    rw [this]
    simp [handledTypes, errorAction]
  | ok resp =>
    rw [hp] at h
    simp only at h
    rcases hrr : LLMService.runRound o resp (LLMService.appendUserMessage text s)
      with ⟨res, s2, cont⟩
    rw [hrr] at h
    cases res with
    | error e => simp at h
    | ok acts1 =>
      cases cont with
      | false =>
        simp only [Bool.false_eq_true, if_false] at h
        simp only [Except.ok.injEq] at h
        intro x hx
        rw [← h] at hx
        exact runRound_types o resp _ acts1 s2 false hrr x hx
      | true =>
        simp only [eq_self_iff_true, if_true] at h
        have hgo : LLMService.continue_generation p o 0 1 s2 =
            LLMService.continue_generation_go p o 5 1 s2 := rfl
        rw [hgo] at h
        cases hres2 : (LLMService.continue_generation_go p o 5 1 s2).result with
        | ok more =>
          rw [hres2] at h
          simp only [Except.ok.injEq] at h
          intro x hx
          rw [← h] at hx
          rcases List.mem_append.mp hx with h1 | h2
          · exact runRound_types o resp _ acts1 s2 true hrr x h1
          · exact continue_generation_go_types p o 5 1 s2 more hres2 x h2
        | error e =>
          rw [hres2] at h
          simp at h

/-- A recognized action type maps to exactly one event of the same type
carrying the action payload. -/
theorem actionEvent_of_handled (a : WorldAction) (h : a.type ∈ handledTypes) :
    Session.actionEvent a = some ⟨a.type, a.data⟩ := by
  simp only [handledTypes, List.mem_cons, List.not_mem_nil, or_false] at h
  rcases h with h | h | h | h | h | h | h | h <;>
    simp [Session.actionEvent, h]

/-- On all-recognized input the event filter is a plain map. -/
theorem filterMap_actionEvent (acts : List WorldAction)
    (h : ∀ x ∈ acts, x.type ∈ handledTypes) :
    acts.filterMap Session.actionEvent =
      acts.map (fun a => (⟨a.type, a.data⟩ : Event)) := by
  induction acts with
  | nil => rfl
  | cons a rest ih =>
    rw [List.filterMap_cons, List.map_cons,
      actionEvent_of_handled a (h a (List.mem_cons_self a rest))]
    rw [ih (fun x hx => h x (List.mem_cons_of_mem a hx))]

/-- C6: a busy session rejects a second process_input immediately with a
single transient status event (never an error event), discarding the
text and leaving the session unchanged; an accepted turn that returns
Actions emits exactly one event of the corresponding type per Action, in
list order, followed by the terminal ready status carrying the
cumulative cost summary, and clears the busy flag. -/
theorem session_turn_serialization :
    (∀ p o text (ss : Session.SessionState), ss.processing = true →
      Session.process_input p o text ss =
        ([Session.statusEv "Still processing previous request..."], ss)) ∧
    (∀ p o text (ss : Session.SessionState) acts, ss.processing = false →
      (LLMService.process_user_input p o text
        { ss.llm with
          world := WorldStateManager.increment_turn ss.llm.world }).result =
        .ok acts →
      Session.process_input p o text ss =
        ([Session.statusEv "Imagining your world..."] ++
         (if acts.isEmpty then []
          else [Session.statusEv
            ("Building " ++ toString acts.length ++ " elements...")]) ++
         acts.map (fun a => (⟨a.type, a.data⟩ : Event)) ++
         [⟨"status", .obj [("message", .str "Ready"),
            ("cost", (LLMService.process_user_input p o text
              { ss.llm with
                world := WorldStateManager.increment_turn ss.llm.world
              }).state.cost_tracker.summary)]⟩],
         ⟨false, (LLMService.process_user_input p o text
           { ss.llm with
             world := WorldStateManager.increment_turn ss.llm.world }).state⟩)) := by
  constructor
  · intro p o text ss hb
    simp [Session.process_input, hb]
  · intro p o text ss acts hb hres
    have htypes := process_user_input_types p o text _ acts hres
    simp only [Session.process_input, hb, Bool.false_eq_true, if_false]
    rw [hres]
    simp only [filterMap_actionEvent acts htypes]

/-- C6 witness: the busy session rejects with the single transient
status, and the accepted narrate turn emits its events in order with the
terminal ready status. -/
theorem session_turn_serialization_witness :
    (busySession.processing = true ∧
      Session.process_input c6prov fixedOracle "hi" busySession =
        ([Session.statusEv "Still processing previous request..."], busySession)) ∧
    (freshSession.processing = false ∧
      (LLMService.process_user_input c6prov fixedOracle "hi"
        { freshSession.llm with
          world := WorldStateManager.increment_turn freshSession.llm.world
        }).result =
        .ok [{ type := "narration", name := none,
               data := .obj [("text", .str "hi")] }] ∧
      Session.process_input c6prov fixedOracle "hi" freshSession =
        ([Session.statusEv "Imagining your world..."] ++
         [Session.statusEv "Building 1 elements..."] ++
         [⟨"narration", .obj [("text", .str "hi")]⟩] ++
         [⟨"status", .obj [("message", .str "Ready"),
            ("cost", (LLMService.process_user_input c6prov fixedOracle "hi"
              { freshSession.llm with
                world := WorldStateManager.increment_turn freshSession.llm.world
              }).state.cost_tracker.summary)]⟩],
         ⟨false, (LLMService.process_user_input c6prov fixedOracle "hi"
           { freshSession.llm with
             world := WorldStateManager.increment_turn freshSession.llm.world
           }).state⟩)) :=
  ⟨⟨rfl, session_turn_serialization.1 c6prov fixedOracle "hi" busySession rfl⟩,
   ⟨rfl, rfl, by
      have h := session_turn_serialization.2 c6prov fixedOracle "hi" freshSession
        [{ type := "narration", name := none,
           data := .obj [("text", .str "hi")] }] rfl rfl
      simpa using h⟩⟩

/-! Claim C8. -/

/-- A chain step with no guard value is the identity. -/
theorem chainStep_none {α : Type} (cur : α × Option PyExn)
    (f : JVal → α → Except PyExn α) : WorldStateManager.chainStep cur none f = cur := by
  rcases cur with ⟨a, ex⟩
  cases ex <;> rfl

/-- A chain step after an exception is the identity. -/
theorem chainStep_err {α : Type} (a : α) (e : PyExn) (g : Option JVal)
    (f : JVal → α → Except PyExn α) : WorldStateManager.chainStep (a, some e) g f = (a, some e) := by
  cases g <;> rfl

/-- Unfolding equation of the patch fold. -/
theorem runPatch_cons {α : Type} (guard : JVal → String → Option JVal)
    (data : JVal) (p : String × (JVal → α → Except PyExn α))
    (steps : List (String × (JVal → α → Except PyExn α)))
    (cur : α × Option PyExn) :
    WorldStateManager.runPatch guard data (p :: steps) cur =
      WorldStateManager.runPatch guard data steps (WorldStateManager.chainStep cur (guard data p.1) p.2) := rfl

/-- The patch fold splits over list append. -/
theorem runPatch_append {α : Type} (guard : JVal → String → Option JVal)
    (data : JVal) (l1 l2 : List (String × (JVal → α → Except PyExn α)))
    (cur : α × Option PyExn) :
    WorldStateManager.runPatch guard data (l1 ++ l2) cur =
      WorldStateManager.runPatch guard data l2 (WorldStateManager.runPatch guard data l1 cur) := by
  unfold WorldStateManager.runPatch
  exact List.foldl_append _ _ l1 l2

/-- Once an exception is recorded the rest of the patch is skipped. -/
theorem runPatch_absorb {α : Type} (guard : JVal → String → Option JVal)
    (data : JVal) (steps : List (String × (JVal → α → Except PyExn α))) :
    ∀ (a : α) (e : PyExn), WorldStateManager.runPatch guard data steps (a, some e) = (a, some e) := by
  induction steps with
  | nil => intro a e; rfl
  | cons p rest ih =>
    intro a e
    rw [runPatch_cons, chainStep_err]
    exact ih a e

/-- A projection not touched by any applicable step is preserved by the
whole patch. -/
theorem runPatch_preserve {α γ : Type} (guard : JVal → String → Option JVal)
    (data : JVal) (steps : List (String × (JVal → α → Except PyExn α)))
    (proj : α → γ) :
    ∀ cur, (∀ p ∈ steps,
      (∀ v a a2, p.2 v a = .ok a2 → proj a2 = proj a) ∨ guard data p.1 = none) →
    proj (WorldStateManager.runPatch guard data steps cur).1 = proj cur.1 := by
  induction steps with
  | nil => intro cur _; rfl
  | cons p rest ih =>
    intro cur h
    rw [runPatch_cons]
    rw [ih (WorldStateManager.chainStep cur (guard data p.1) p.2)
      (fun q hq => h q (List.mem_cons_of_mem p hq))]
    rcases h p (List.mem_cons_self p rest) with hf | hg
    · rcases cur with ⟨a, ex⟩
      cases ex with
      | some e => rw [chainStep_err]
      | none =>
        cases hgd : guard data p.1 with
        | none => rw [chainStep_none]
        | some v =>
          cases hfa : p.2 v a with
          | ok a2 =>
            simp only [WorldStateManager.chainStep, hfa]
            exact hf v a a2 hfa
          | error e =>
            simp only [WorldStateManager.chainStep, hfa]
    · rw [hg, chainStep_none]

/-- When the head step has a present guard value, applies cleanly, and
no later step touches the projection, the whole patch sets the
projection to the step's result. -/
theorem runPatch_apply_head {α γ : Type} (guard : JVal → String → Option JVal)
    (data : JVal) (k : String) (f : JVal → α → Except PyExn α)
    (post : List (String × (JVal → α → Except PyExn α)))
    (cur : α × Option PyExn) (proj : α → γ) (v : JVal) (t : γ)
    (hg : guard data k = some v)
    (hf : ∀ a, ∃ a2, f v a = .ok a2 ∧ proj a2 = t)
    (hpost : ∀ p ∈ post, ∀ w a a2, p.2 w a = .ok a2 → proj a2 = proj a)
    (hok : (WorldStateManager.runPatch guard data ((k, f) :: post) cur).2 = none) :
    proj (WorldStateManager.runPatch guard data ((k, f) :: post) cur).1 = t := by
  rcases cur with ⟨a, ex⟩
  cases ex with
  | some e =>
    rw [runPatch_cons, chainStep_err, runPatch_absorb] at hok
    cases hok
  | none =>
    obtain ⟨a2, hfa, hpt⟩ := hf a
    have hstep : WorldStateManager.chainStep (a, none) (guard data k) f = (a2, none) := by
      rw [hg]
      simp only [WorldStateManager.chainStep, hfa]
    rw [runPatch_cons, hstep]
    rw [runPatch_preserve guard data post proj (a2, none)
      (fun p hp => Or.inl (hpost p hp))]
    exact hpt

/-- Shape of the position step of modify_object. -/
theorem modSetPosition_shape (v : JVal) (o o2 : WorldObject)
    (h : WorldStateManager.modSetPosition v o = .ok o2) :
    ∃ p, o2 = { o with position := p } := by
  obtain ⟨p, _, h2⟩ := except_map_ok h
  exact ⟨p, h2.symm⟩

/-- Shape of the rotation step of modify_object. -/
theorem modSetRotation_shape (v : JVal) (o o2 : WorldObject)
    (h : WorldStateManager.modSetRotation v o = .ok o2) :
    ∃ p, o2 = { o with rotation := p } := by
  obtain ⟨p, _, h2⟩ := except_map_ok h
  exact ⟨p, h2.symm⟩

/-- Shape of the scale step of modify_object. -/
theorem modSetScale_shape (v : JVal) (o o2 : WorldObject)
    (h : WorldStateManager.modSetScale v o = .ok o2) :
    ∃ p, o2 = { o with scale := p } := by
  obtain ⟨p, _, h2⟩ := except_map_ok h
  exact ⟨p, h2.symm⟩

/-- Shape of the animation step of modify_object. -/
theorem modSetAnimation_shape (v : JVal) (o o2 : WorldObject)
    (h : WorldStateManager.modSetAnimation v o = .ok o2) :
    ∃ an, o2 = { o with animation := an } := by
  obtain ⟨an, _, h2⟩ := except_map_ok h
  exact ⟨an, h2.symm⟩

/-- Shape of the material step of modify_object. -/
theorem modifyMaterial_shape (v : JVal) (o o2 : WorldObject)
    (h : WorldStateManager.modifyMaterial v o = .ok o2) :
    ∃ m, o2 = { o with material := m } := by
  cases v with
  | obj fs =>
    simp only [WorldStateManager.modifyMaterial] at h
    cases hc : (JVal.obj fs).lookup "color" with
    | none =>
      simp only [hc] at h
      first
        | (simp only [Except.ok.injEq] at h; exact ⟨_, h.symm⟩)
        | (obtain ⟨y, _, h2⟩ := except_bind_ok h;
           simp only [Except.ok.injEq] at h2; exact ⟨_, h2.symm⟩)
    | some c =>
      simp only [hc] at h
      obtain ⟨cc, _, h2⟩ := except_bind_ok h
      first
        | (simp only [Except.ok.injEq] at h2; exact ⟨_, h2.symm⟩)
        | (obtain ⟨y, _, h3⟩ := except_bind_ok h2;
           simp only [Except.ok.injEq] at h3; exact ⟨_, h3.symm⟩)
  | null => simp [WorldStateManager.modifyMaterial] at h
  | bool b => simp [WorldStateManager.modifyMaterial] at h
  | num q => simp [WorldStateManager.modifyMaterial] at h
  | str s => simp [WorldStateManager.modifyMaterial] at h
  | arr xs => simp [WorldStateManager.modifyMaterial] at h

/-- Shape of the sky_color step of update_environment. -/
theorem envSetSkyColor_shape (v : JVal) (e e2 : EnvironmentSettings)
    (h : WorldStateManager.envSetSkyColor v e = .ok e2) :
    ∃ c, e2 = { e with sky_color := c } := by
  obtain ⟨c, _, h2⟩ := except_map_ok h
  exact ⟨c, h2.symm⟩

/-- Shape of the fog_color step of update_environment. -/
theorem envSetFogColor_shape (v : JVal) (e e2 : EnvironmentSettings)
    (h : WorldStateManager.envSetFogColor v e = .ok e2) :
    ∃ c, e2 = { e with fog_color := some c } := by
  obtain ⟨c, _, h2⟩ := except_map_ok h
  exact ⟨c, h2.symm⟩

/-- Shape of the ambient color step of update_environment. -/
theorem envSetAmbientLightColor_shape (v : JVal) (e e2 : EnvironmentSettings)
    (h : WorldStateManager.envSetAmbientLightColor v e = .ok e2) :
    ∃ c, e2 = { e with ambient_light_color := c } := by
  obtain ⟨c, _, h2⟩ := except_map_ok h
  exact ⟨c, h2.symm⟩

/-- Shape of the sun color step of update_environment. -/
theorem envSetSunColor_shape (v : JVal) (e e2 : EnvironmentSettings)
    (h : WorldStateManager.envSetSunColor v e = .ok e2) :
    ∃ c, e2 = { e with sun_color := c } := by
  obtain ⟨c, _, h2⟩ := except_map_ok h
  exact ⟨c, h2.symm⟩

/-- Shape of the sun position step of update_environment. -/
theorem envSetSunPosition_shape (v : JVal) (e e2 : EnvironmentSettings)
    (h : WorldStateManager.envSetSunPosition v e = .ok e2) :
    ∃ p, e2 = { e with sun_position := p } := by
  obtain ⟨p, _, h2⟩ := except_map_ok h
  exact ⟨p, h2.symm⟩

/-- Retention by modify_object of a position absent from the patch. -/
theorem mod_keeps_position (data : JVal) (o : WorldObject)
    (hg : WorldStateManager.modGuard data "position" = none) :
    (WorldStateManager.modifySteps data o).1.position = o.position := by
  unfold WorldStateManager.modifySteps
  refine runPatch_preserve _ _ _ (fun x : WorldObject => x.position) _ ?_
  intro p hp
  simp only [WorldStateManager.modStepList, List.mem_cons, List.not_mem_nil,
    or_false] at hp
  rcases hp with rfl | rfl | rfl | rfl | rfl
  · exact Or.inr hg
  · left
    intro v a a2 h
    dsimp only at h
    obtain ⟨c, hc⟩ := modSetRotation_shape v a a2 h
    subst hc
    rfl
  · left
    intro v a a2 h
    dsimp only at h
    obtain ⟨c, hc⟩ := modSetScale_shape v a a2 h
    subst hc
    rfl
  · left
    intro v a a2 h
    dsimp only at h
    obtain ⟨c, hc⟩ := modifyMaterial_shape v a a2 h
    subst hc
    rfl
  · left
    intro v a a2 h
    dsimp only at h
    obtain ⟨c, hc⟩ := modSetAnimation_shape v a a2 h
    subst hc
    rfl

/-- Retention by modify_object of a rotation absent from the patch. -/
theorem mod_keeps_rotation (data : JVal) (o : WorldObject)
    (hg : WorldStateManager.modGuard data "rotation" = none) :
    (WorldStateManager.modifySteps data o).1.rotation = o.rotation := by
  unfold WorldStateManager.modifySteps
  refine runPatch_preserve _ _ _ (fun x : WorldObject => x.rotation) _ ?_
  intro p hp
  simp only [WorldStateManager.modStepList, List.mem_cons, List.not_mem_nil,
    or_false] at hp
  rcases hp with rfl | rfl | rfl | rfl | rfl
  · left
    intro v a a2 h
    dsimp only at h
    obtain ⟨c, hc⟩ := modSetPosition_shape v a a2 h
    subst hc
    rfl
  · exact Or.inr hg
  · left
    intro v a a2 h
    dsimp only at h
    obtain ⟨c, hc⟩ := modSetScale_shape v a a2 h
    subst hc
    rfl
  · left
    intro v a a2 h
    dsimp only at h
    obtain ⟨c, hc⟩ := modifyMaterial_shape v a a2 h
    subst hc
    rfl
  · left
    intro v a a2 h
    dsimp only at h
    obtain ⟨c, hc⟩ := modSetAnimation_shape v a a2 h
    subst hc
    rfl

/-- Retention by modify_object of a scale absent from the patch. -/
theorem mod_keeps_scale (data : JVal) (o : WorldObject)
    (hg : WorldStateManager.modGuard data "scale" = none) :
    (WorldStateManager.modifySteps data o).1.scale = o.scale := by
  unfold WorldStateManager.modifySteps
  refine runPatch_preserve _ _ _ (fun x : WorldObject => x.scale) _ ?_
  intro p hp
  simp only [WorldStateManager.modStepList, List.mem_cons, List.not_mem_nil,
    or_false] at hp
  rcases hp with rfl | rfl | rfl | rfl | rfl
  · left
    intro v a a2 h
    dsimp only at h
    obtain ⟨c, hc⟩ := modSetPosition_shape v a a2 h
    subst hc
    rfl
  · left
    intro v a a2 h
    dsimp only at h
    obtain ⟨c, hc⟩ := modSetRotation_shape v a a2 h
    subst hc
    rfl
  · exact Or.inr hg
  · left
    intro v a a2 h
    dsimp only at h
    obtain ⟨c, hc⟩ := modifyMaterial_shape v a a2 h
    subst hc
    rfl
  · left
    intro v a a2 h
    dsimp only at h
    obtain ⟨c, hc⟩ := modSetAnimation_shape v a a2 h
    subst hc
    rfl

/-- Retention by modify_object of a material absent from the patch. -/
theorem mod_keeps_material (data : JVal) (o : WorldObject)
    (hg : WorldStateManager.modGuard data "material" = none) :
    (WorldStateManager.modifySteps data o).1.material = o.material := by
  unfold WorldStateManager.modifySteps
  refine runPatch_preserve _ _ _ (fun x : WorldObject => x.material) _ ?_
  intro p hp
  simp only [WorldStateManager.modStepList, List.mem_cons, List.not_mem_nil,
    or_false] at hp
  rcases hp with rfl | rfl | rfl | rfl | rfl
  · left
    intro v a a2 h
    dsimp only at h
    obtain ⟨c, hc⟩ := modSetPosition_shape v a a2 h
    subst hc
    rfl
  · left
    intro v a a2 h
    dsimp only at h
    obtain ⟨c, hc⟩ := modSetRotation_shape v a a2 h
    subst hc
    rfl
  · left
    intro v a a2 h
    dsimp only at h
    obtain ⟨c, hc⟩ := modSetScale_shape v a a2 h
    subst hc
    rfl
  · exact Or.inr hg
  · left
    intro v a a2 h
    dsimp only at h
    obtain ⟨c, hc⟩ := modSetAnimation_shape v a a2 h
    subst hc
    rfl

/-- Retention by modify_object of an animation absent from the patch. -/
theorem mod_keeps_animation (data : JVal) (o : WorldObject)
    (hg : WorldStateManager.modGuard data "animation" = none) :
    (WorldStateManager.modifySteps data o).1.animation = o.animation := by
  unfold WorldStateManager.modifySteps
  refine runPatch_preserve _ _ _ (fun x : WorldObject => x.animation) _ ?_
  intro p hp
  simp only [WorldStateManager.modStepList, List.mem_cons, List.not_mem_nil,
    or_false] at hp
  rcases hp with rfl | rfl | rfl | rfl | rfl
  · left
    intro v a a2 h
    dsimp only at h
    obtain ⟨c, hc⟩ := modSetPosition_shape v a a2 h
    subst hc
    rfl
  · left
    intro v a a2 h
    dsimp only at h
    obtain ⟨c, hc⟩ := modSetRotation_shape v a a2 h
    subst hc
    rfl
  · left
    intro v a a2 h
    dsimp only at h
    obtain ⟨c, hc⟩ := modSetScale_shape v a a2 h
    subst hc
    rfl
  · left
    intro v a a2 h
    dsimp only at h
    obtain ⟨c, hc⟩ := modifyMaterial_shape v a a2 h
    subst hc
    rfl
  · exact Or.inr hg

/-- Retention by update_environment of sky color when the key is absent. -/
theorem env_keeps_sky_color (data : JVal) (e : EnvironmentSettings)
    (hg : WorldStateManager.envGuard data "sky_color" = none) :
    (WorldStateManager.envSteps data e).1.sky_color = e.sky_color := by
  unfold WorldStateManager.envSteps
  refine runPatch_preserve _ _ _ (fun x : EnvironmentSettings => x.sky_color) _ ?_
  intro p hp
  simp only [WorldStateManager.envStepList, List.mem_cons, List.not_mem_nil,
    or_false] at hp
  rcases hp with rfl | rfl | rfl | rfl | rfl | rfl | rfl | rfl | rfl | rfl | rfl
  · exact Or.inr hg
  · left
    intro v a a2 h
    dsimp only at h
    simp only [WorldStateManager.envSetFogEnabled, Except.ok.injEq] at h
    subst h
    rfl
  · left
    intro v a a2 h
    dsimp only at h
    obtain ⟨c, hc⟩ := envSetFogColor_shape v a a2 h
    subst hc
    rfl
  · left
    intro v a a2 h
    dsimp only at h
    simp only [WorldStateManager.envSetFogNear, Except.ok.injEq] at h
    subst h
    rfl
  · left
    intro v a a2 h
    dsimp only at h
    simp only [WorldStateManager.envSetFogFar, Except.ok.injEq] at h
    subst h
    rfl
  · left
    intro v a a2 h
    dsimp only at h
    obtain ⟨c, hc⟩ := envSetAmbientLightColor_shape v a a2 h
    subst hc
    rfl
  · left
    intro v a a2 h
    dsimp only at h
    simp only [WorldStateManager.envSetAmbientLightIntensity, Except.ok.injEq] at h
    subst h
    rfl
  · left
    intro v a a2 h
    dsimp only at h
    obtain ⟨c, hc⟩ := envSetSunColor_shape v a a2 h
    subst hc
    rfl
  · left
    intro v a a2 h
    dsimp only at h
    simp only [WorldStateManager.envSetSunIntensity, Except.ok.injEq] at h
    subst h
    rfl
  · left
    intro v a a2 h
    dsimp only at h
    obtain ⟨c, hc⟩ := envSetSunPosition_shape v a a2 h
    subst hc
    rfl
  · left
    intro v a a2 h
    dsimp only at h
    simp only [WorldStateManager.envSetTimeOfDay, Except.ok.injEq] at h
    subst h
    rfl

/-- Retention by update_environment of fog enabled when the key is absent. -/
theorem env_keeps_fog_enabled (data : JVal) (e : EnvironmentSettings)
    (hg : WorldStateManager.envGuard data "fog_enabled" = none) :
    (WorldStateManager.envSteps data e).1.fog_enabled = e.fog_enabled := by
  unfold WorldStateManager.envSteps
  refine runPatch_preserve _ _ _ (fun x : EnvironmentSettings => x.fog_enabled) _ ?_
  intro p hp
  simp only [WorldStateManager.envStepList, List.mem_cons, List.not_mem_nil,
    or_false] at hp
  rcases hp with rfl | rfl | rfl | rfl | rfl | rfl | rfl | rfl | rfl | rfl | rfl
  · left
    intro v a a2 h
    dsimp only at h
    obtain ⟨c, hc⟩ := envSetSkyColor_shape v a a2 h
    subst hc
    rfl
  · exact Or.inr hg
  · left
    intro v a a2 h
    dsimp only at h
    obtain ⟨c, hc⟩ := envSetFogColor_shape v a a2 h
    subst hc
    rfl
  · left
    intro v a a2 h
    dsimp only at h
    simp only [WorldStateManager.envSetFogNear, Except.ok.injEq] at h
    subst h
    rfl
  · left
    intro v a a2 h
    dsimp only at h
    simp only [WorldStateManager.envSetFogFar, Except.ok.injEq] at h
    subst h
    rfl
  · left
    intro v a a2 h
    dsimp only at h
    obtain ⟨c, hc⟩ := envSetAmbientLightColor_shape v a a2 h
    subst hc
    rfl
  · left
    intro v a a2 h
    dsimp only at h
    simp only [WorldStateManager.envSetAmbientLightIntensity, Except.ok.injEq] at h
    subst h
    rfl
  · left
    intro v a a2 h
    dsimp only at h
    obtain ⟨c, hc⟩ := envSetSunColor_shape v a a2 h
    subst hc
    rfl
  · left
    intro v a a2 h
    dsimp only at h
    simp only [WorldStateManager.envSetSunIntensity, Except.ok.injEq] at h
    subst h
    rfl
  · left
    intro v a a2 h
    dsimp only at h
    obtain ⟨c, hc⟩ := envSetSunPosition_shape v a a2 h
    subst hc
    rfl
  · left
    intro v a a2 h
    dsimp only at h
    simp only [WorldStateManager.envSetTimeOfDay, Except.ok.injEq] at h
    subst h
    rfl

/-- Retention by update_environment of fog color when the key is absent. -/
theorem env_keeps_fog_color (data : JVal) (e : EnvironmentSettings)
    (hg : WorldStateManager.envGuard data "fog_color" = none) :
    (WorldStateManager.envSteps data e).1.fog_color = e.fog_color := by
  unfold WorldStateManager.envSteps
  refine runPatch_preserve _ _ _ (fun x : EnvironmentSettings => x.fog_color) _ ?_
  intro p hp
  simp only [WorldStateManager.envStepList, List.mem_cons, List.not_mem_nil,
    or_false] at hp
  rcases hp with rfl | rfl | rfl | rfl | rfl | rfl | rfl | rfl | rfl | rfl | rfl
  · left
    intro v a a2 h
    dsimp only at h
    obtain ⟨c, hc⟩ := envSetSkyColor_shape v a a2 h
    subst hc
    rfl
  · left
    intro v a a2 h
    dsimp only at h
    simp only [WorldStateManager.envSetFogEnabled, Except.ok.injEq] at h
    subst h
    rfl
  · exact Or.inr hg
  · left
    intro v a a2 h
    dsimp only at h
    simp only [WorldStateManager.envSetFogNear, Except.ok.injEq] at h
    subst h
    rfl
  · left
    intro v a a2 h
    dsimp only at h
    simp only [WorldStateManager.envSetFogFar, Except.ok.injEq] at h
    subst h
    rfl
  · left
    intro v a a2 h
    dsimp only at h
    obtain ⟨c, hc⟩ := envSetAmbientLightColor_shape v a a2 h
    subst hc
    rfl
  · left
    intro v a a2 h
    dsimp only at h
    simp only [WorldStateManager.envSetAmbientLightIntensity, Except.ok.injEq] at h
    subst h
    rfl
  · left
    intro v a a2 h
    dsimp only at h
    obtain ⟨c, hc⟩ := envSetSunColor_shape v a a2 h
    subst hc
    rfl
  · left
    intro v a a2 h
    dsimp only at h
    simp only [WorldStateManager.envSetSunIntensity, Except.ok.injEq] at h
    subst h
    rfl
  · left
    intro v a a2 h
    dsimp only at h
    obtain ⟨c, hc⟩ := envSetSunPosition_shape v a a2 h
    subst hc
    rfl
  · left
    intro v a a2 h
    dsimp only at h
    simp only [WorldStateManager.envSetTimeOfDay, Except.ok.injEq] at h
    subst h
    rfl

/-- Retention by update_environment of fog near when the key is absent. -/
theorem env_keeps_fog_near (data : JVal) (e : EnvironmentSettings)
    (hg : WorldStateManager.envGuard data "fog_near" = none) :
    (WorldStateManager.envSteps data e).1.fog_near = e.fog_near := by
  unfold WorldStateManager.envSteps
  refine runPatch_preserve _ _ _ (fun x : EnvironmentSettings => x.fog_near) _ ?_
  intro p hp
  simp only [WorldStateManager.envStepList, List.mem_cons, List.not_mem_nil,
    or_false] at hp
  rcases hp with rfl | rfl | rfl | rfl | rfl | rfl | rfl | rfl | rfl | rfl | rfl
  · left
    intro v a a2 h
    dsimp only at h
    obtain ⟨c, hc⟩ := envSetSkyColor_shape v a a2 h
    subst hc
    rfl
  · left
    intro v a a2 h
    dsimp only at h
    simp only [WorldStateManager.envSetFogEnabled, Except.ok.injEq] at h
    subst h
    rfl
  · left
    intro v a a2 h
    dsimp only at h
    obtain ⟨c, hc⟩ := envSetFogColor_shape v a a2 h
    subst hc
    rfl
  · exact Or.inr hg
  · left
    intro v a a2 h
    dsimp only at h
    simp only [WorldStateManager.envSetFogFar, Except.ok.injEq] at h
    subst h
    rfl
  · left
    intro v a a2 h
    dsimp only at h
    obtain ⟨c, hc⟩ := envSetAmbientLightColor_shape v a a2 h
    subst hc
    rfl
  · left
    intro v a a2 h
    dsimp only at h
    simp only [WorldStateManager.envSetAmbientLightIntensity, Except.ok.injEq] at h
    subst h
    rfl
  · left
    intro v a a2 h
    dsimp only at h
    obtain ⟨c, hc⟩ := envSetSunColor_shape v a a2 h
    subst hc
    rfl
  · left
    intro v a a2 h
    dsimp only at h
    simp only [WorldStateManager.envSetSunIntensity, Except.ok.injEq] at h
    subst h
    rfl
  · left
    intro v a a2 h
    dsimp only at h
    obtain ⟨c, hc⟩ := envSetSunPosition_shape v a a2 h
    subst hc
    rfl
  · left
    intro v a a2 h
    dsimp only at h
    simp only [WorldStateManager.envSetTimeOfDay, Except.ok.injEq] at h
    subst h
    rfl

/-- Retention by update_environment of fog far when the key is absent. -/
theorem env_keeps_fog_far (data : JVal) (e : EnvironmentSettings)
    (hg : WorldStateManager.envGuard data "fog_far" = none) :
    (WorldStateManager.envSteps data e).1.fog_far = e.fog_far := by
  unfold WorldStateManager.envSteps
  refine runPatch_preserve _ _ _ (fun x : EnvironmentSettings => x.fog_far) _ ?_
  intro p hp
  simp only [WorldStateManager.envStepList, List.mem_cons, List.not_mem_nil,
    or_false] at hp
  rcases hp with rfl | rfl | rfl | rfl | rfl | rfl | rfl | rfl | rfl | rfl | rfl
  · left
    intro v a a2 h
    dsimp only at h
    obtain ⟨c, hc⟩ := envSetSkyColor_shape v a a2 h
    subst hc
    rfl
  · left
    intro v a a2 h
    dsimp only at h
    simp only [WorldStateManager.envSetFogEnabled, Except.ok.injEq] at h
    subst h
    rfl
  · left
    intro v a a2 h
    dsimp only at h
    obtain ⟨c, hc⟩ := envSetFogColor_shape v a a2 h
    subst hc
    rfl
  · left
    intro v a a2 h
    dsimp only at h
    simp only [WorldStateManager.envSetFogNear, Except.ok.injEq] at h
    subst h
    rfl
  · exact Or.inr hg
  · left
    intro v a a2 h
    dsimp only at h
    obtain ⟨c, hc⟩ := envSetAmbientLightColor_shape v a a2 h
    subst hc
    rfl
  · left
    intro v a a2 h
    dsimp only at h
    simp only [WorldStateManager.envSetAmbientLightIntensity, Except.ok.injEq] at h
    subst h
    rfl
  · left
    intro v a a2 h
    dsimp only at h
    obtain ⟨c, hc⟩ := envSetSunColor_shape v a a2 h
    subst hc
    rfl
  · left
    intro v a a2 h
    dsimp only at h
    simp only [WorldStateManager.envSetSunIntensity, Except.ok.injEq] at h
    subst h
    rfl
  · left
    intro v a a2 h
    dsimp only at h
    obtain ⟨c, hc⟩ := envSetSunPosition_shape v a a2 h
    subst hc
    rfl
  · left
    intro v a a2 h
    dsimp only at h
    simp only [WorldStateManager.envSetTimeOfDay, Except.ok.injEq] at h
    subst h
    rfl

/-- Retention by update_environment of ambient light color when the key is absent. -/
theorem env_keeps_ambient_light_color (data : JVal) (e : EnvironmentSettings)
    (hg : WorldStateManager.envGuard data "ambient_light_color" = none) :
    (WorldStateManager.envSteps data e).1.ambient_light_color = e.ambient_light_color := by
  unfold WorldStateManager.envSteps
  refine runPatch_preserve _ _ _ (fun x : EnvironmentSettings => x.ambient_light_color) _ ?_
  intro p hp
  simp only [WorldStateManager.envStepList, List.mem_cons, List.not_mem_nil,
    or_false] at hp
  rcases hp with rfl | rfl | rfl | rfl | rfl | rfl | rfl | rfl | rfl | rfl | rfl
  · left
    intro v a a2 h
    dsimp only at h
    obtain ⟨c, hc⟩ := envSetSkyColor_shape v a a2 h
    subst hc
    rfl
  · left
    intro v a a2 h
    dsimp only at h
    simp only [WorldStateManager.envSetFogEnabled, Except.ok.injEq] at h
    subst h
    rfl
  · left
    intro v a a2 h
    dsimp only at h
    obtain ⟨c, hc⟩ := envSetFogColor_shape v a a2 h
    subst hc
    rfl
  · left
    intro v a a2 h
    dsimp only at h
    simp only [WorldStateManager.envSetFogNear, Except.ok.injEq] at h
    subst h
    rfl
  · left
    intro v a a2 h
    dsimp only at h
    simp only [WorldStateManager.envSetFogFar, Except.ok.injEq] at h
    subst h
    rfl
  · exact Or.inr hg
  · left
    intro v a a2 h
    dsimp only at h
    simp only [WorldStateManager.envSetAmbientLightIntensity, Except.ok.injEq] at h
    subst h
    rfl
  · left
    intro v a a2 h
    dsimp only at h
    obtain ⟨c, hc⟩ := envSetSunColor_shape v a a2 h
    subst hc
    rfl
  · left
    intro v a a2 h
    dsimp only at h
    simp only [WorldStateManager.envSetSunIntensity, Except.ok.injEq] at h
    subst h
    rfl
  · left
    intro v a a2 h
    dsimp only at h
    obtain ⟨c, hc⟩ := envSetSunPosition_shape v a a2 h
    subst hc
    rfl
  · left
    intro v a a2 h
    dsimp only at h
    simp only [WorldStateManager.envSetTimeOfDay, Except.ok.injEq] at h
    subst h
    rfl

/-- Retention by update_environment of ambient light intensity when the key is absent. -/
theorem env_keeps_ambient_light_intensity (data : JVal) (e : EnvironmentSettings)
    (hg : WorldStateManager.envGuard data "ambient_light_intensity" = none) :
    (WorldStateManager.envSteps data e).1.ambient_light_intensity = e.ambient_light_intensity := by
  unfold WorldStateManager.envSteps
  refine runPatch_preserve _ _ _ (fun x : EnvironmentSettings => x.ambient_light_intensity) _ ?_
  intro p hp
  simp only [WorldStateManager.envStepList, List.mem_cons, List.not_mem_nil,
    or_false] at hp
  rcases hp with rfl | rfl | rfl | rfl | rfl | rfl | rfl | rfl | rfl | rfl | rfl
  · left
    intro v a a2 h
    dsimp only at h
    obtain ⟨c, hc⟩ := envSetSkyColor_shape v a a2 h
    subst hc
    rfl
  · left
    intro v a a2 h
    dsimp only at h
    simp only [WorldStateManager.envSetFogEnabled, Except.ok.injEq] at h
    subst h
    rfl
  · left
    intro v a a2 h
    dsimp only at h
    obtain ⟨c, hc⟩ := envSetFogColor_shape v a a2 h
    subst hc
    rfl
  · left
    intro v a a2 h
    dsimp only at h
    simp only [WorldStateManager.envSetFogNear, Except.ok.injEq] at h
    subst h
    rfl
  · left
    intro v a a2 h
    dsimp only at h
    simp only [WorldStateManager.envSetFogFar, Except.ok.injEq] at h
    subst h
    rfl
  · left
    intro v a a2 h
    dsimp only at h
    obtain ⟨c, hc⟩ := envSetAmbientLightColor_shape v a a2 h
    subst hc
    rfl
  · exact Or.inr hg
  · left
    intro v a a2 h
    dsimp only at h
    obtain ⟨c, hc⟩ := envSetSunColor_shape v a a2 h
    subst hc
    rfl
  · left
    intro v a a2 h
    dsimp only at h
    simp only [WorldStateManager.envSetSunIntensity, Except.ok.injEq] at h
    subst h
    rfl
  · left
    intro v a a2 h
    dsimp only at h
    obtain ⟨c, hc⟩ := envSetSunPosition_shape v a a2 h
    subst hc
    rfl
  · left
    intro v a a2 h
    dsimp only at h
    simp only [WorldStateManager.envSetTimeOfDay, Except.ok.injEq] at h
    subst h
    rfl

/-- Retention by update_environment of sun color when the key is absent. -/
theorem env_keeps_sun_color (data : JVal) (e : EnvironmentSettings)
    (hg : WorldStateManager.envGuard data "sun_color" = none) :
    (WorldStateManager.envSteps data e).1.sun_color = e.sun_color := by
  unfold WorldStateManager.envSteps
  refine runPatch_preserve _ _ _ (fun x : EnvironmentSettings => x.sun_color) _ ?_
  intro p hp
  simp only [WorldStateManager.envStepList, List.mem_cons, List.not_mem_nil,
    or_false] at hp
  rcases hp with rfl | rfl | rfl | rfl | rfl | rfl | rfl | rfl | rfl | rfl | rfl
  · left
    intro v a a2 h
    dsimp only at h
    obtain ⟨c, hc⟩ := envSetSkyColor_shape v a a2 h
    subst hc
    rfl
  · left
    intro v a a2 h
    dsimp only at h
    simp only [WorldStateManager.envSetFogEnabled, Except.ok.injEq] at h
    subst h
    rfl
  · left
    intro v a a2 h
    dsimp only at h
    obtain ⟨c, hc⟩ := envSetFogColor_shape v a a2 h
    subst hc
    rfl
  · left
    intro v a a2 h
    dsimp only at h
    simp only [WorldStateManager.envSetFogNear, Except.ok.injEq] at h
    subst h
    rfl
  · left
    intro v a a2 h
    dsimp only at h
    simp only [WorldStateManager.envSetFogFar, Except.ok.injEq] at h
    subst h
    rfl
  · left
    intro v a a2 h
    dsimp only at h
    obtain ⟨c, hc⟩ := envSetAmbientLightColor_shape v a a2 h
    subst hc
    rfl
  · left
    intro v a a2 h
    dsimp only at h
    simp only [WorldStateManager.envSetAmbientLightIntensity, Except.ok.injEq] at h
    subst h
    rfl
  · exact Or.inr hg
  · left
    intro v a a2 h
    dsimp only at h
    simp only [WorldStateManager.envSetSunIntensity, Except.ok.injEq] at h
    subst h
    rfl
  · left
    intro v a a2 h
    dsimp only at h
    obtain ⟨c, hc⟩ := envSetSunPosition_shape v a a2 h
    subst hc
    rfl
  · left
    intro v a a2 h
    dsimp only at h
    simp only [WorldStateManager.envSetTimeOfDay, Except.ok.injEq] at h
    subst h
    rfl

/-- Retention by update_environment of sun intensity when the key is absent. -/
theorem env_keeps_sun_intensity (data : JVal) (e : EnvironmentSettings)
    (hg : WorldStateManager.envGuard data "sun_intensity" = none) :
    (WorldStateManager.envSteps data e).1.sun_intensity = e.sun_intensity := by
  unfold WorldStateManager.envSteps
  refine runPatch_preserve _ _ _ (fun x : EnvironmentSettings => x.sun_intensity) _ ?_
  intro p hp
  simp only [WorldStateManager.envStepList, List.mem_cons, List.not_mem_nil,
    or_false] at hp
  rcases hp with rfl | rfl | rfl | rfl | rfl | rfl | rfl | rfl | rfl | rfl | rfl
  · left
    intro v a a2 h
    dsimp only at h
    obtain ⟨c, hc⟩ := envSetSkyColor_shape v a a2 h
    subst hc
    rfl
  · left
    intro v a a2 h
    dsimp only at h
    simp only [WorldStateManager.envSetFogEnabled, Except.ok.injEq] at h
    subst h
    rfl
  · left
    intro v a a2 h
    dsimp only at h
    obtain ⟨c, hc⟩ := envSetFogColor_shape v a a2 h
    subst hc
    rfl
  · left
    intro v a a2 h
    dsimp only at h
    simp only [WorldStateManager.envSetFogNear, Except.ok.injEq] at h
    subst h
    rfl
  · left
    intro v a a2 h
    dsimp only at h
    simp only [WorldStateManager.envSetFogFar, Except.ok.injEq] at h
    subst h
    rfl
  · left
    intro v a a2 h
    dsimp only at h
    obtain ⟨c, hc⟩ := envSetAmbientLightColor_shape v a a2 h
    subst hc
    rfl
  · left
    intro v a a2 h
    dsimp only at h
    simp only [WorldStateManager.envSetAmbientLightIntensity, Except.ok.injEq] at h
    subst h
    rfl
  · left
    intro v a a2 h
    dsimp only at h
    obtain ⟨c, hc⟩ := envSetSunColor_shape v a a2 h
    subst hc
    rfl
  · exact Or.inr hg
  · left
    intro v a a2 h
    dsimp only at h
    obtain ⟨c, hc⟩ := envSetSunPosition_shape v a a2 h
    subst hc
    rfl
  · left
    intro v a a2 h
    dsimp only at h
    simp only [WorldStateManager.envSetTimeOfDay, Except.ok.injEq] at h
    subst h
    rfl

/-- Retention by update_environment of sun position when the key is absent. -/
theorem env_keeps_sun_position (data : JVal) (e : EnvironmentSettings)
    (hg : WorldStateManager.envGuard data "sun_position" = none) :
    (WorldStateManager.envSteps data e).1.sun_position = e.sun_position := by
  unfold WorldStateManager.envSteps
  refine runPatch_preserve _ _ _ (fun x : EnvironmentSettings => x.sun_position) _ ?_
  intro p hp
  simp only [WorldStateManager.envStepList, List.mem_cons, List.not_mem_nil,
    or_false] at hp
  rcases hp with rfl | rfl | rfl | rfl | rfl | rfl | rfl | rfl | rfl | rfl | rfl
  · left
    intro v a a2 h
    dsimp only at h
    obtain ⟨c, hc⟩ := envSetSkyColor_shape v a a2 h
    subst hc
    rfl
  · left
    intro v a a2 h
    dsimp only at h
    simp only [WorldStateManager.envSetFogEnabled, Except.ok.injEq] at h
    subst h
    rfl
  · left
    intro v a a2 h
    dsimp only at h
    obtain ⟨c, hc⟩ := envSetFogColor_shape v a a2 h
    subst hc
    rfl
  · left
    intro v a a2 h
    dsimp only at h
    simp only [WorldStateManager.envSetFogNear, Except.ok.injEq] at h
    subst h
    rfl
  · left
    intro v a a2 h
    dsimp only at h
    simp only [WorldStateManager.envSetFogFar, Except.ok.injEq] at h
    subst h
    rfl
  · left
    intro v a a2 h
    dsimp only at h
    obtain ⟨c, hc⟩ := envSetAmbientLightColor_shape v a a2 h
    subst hc
    rfl
  · left
    intro v a a2 h
    dsimp only at h
    simp only [WorldStateManager.envSetAmbientLightIntensity, Except.ok.injEq] at h
    subst h
    rfl
  · left
    intro v a a2 h
    dsimp only at h
    obtain ⟨c, hc⟩ := envSetSunColor_shape v a a2 h
    subst hc
    rfl
  · left
    intro v a a2 h
    dsimp only at h
    simp only [WorldStateManager.envSetSunIntensity, Except.ok.injEq] at h
    subst h
    rfl
  · exact Or.inr hg
  · left
    intro v a a2 h
    dsimp only at h
    simp only [WorldStateManager.envSetTimeOfDay, Except.ok.injEq] at h
    subst h
    rfl

/-- Retention by update_environment of time of day when the key is absent. -/
theorem env_keeps_time_of_day (data : JVal) (e : EnvironmentSettings)
    (hg : WorldStateManager.envGuard data "time_of_day" = none) :
    (WorldStateManager.envSteps data e).1.time_of_day = e.time_of_day := by
  unfold WorldStateManager.envSteps
  refine runPatch_preserve _ _ _ (fun x : EnvironmentSettings => x.time_of_day) _ ?_
  intro p hp
  simp only [WorldStateManager.envStepList, List.mem_cons, List.not_mem_nil,
    or_false] at hp
  rcases hp with rfl | rfl | rfl | rfl | rfl | rfl | rfl | rfl | rfl | rfl | rfl
  · left
    intro v a a2 h
    dsimp only at h
    obtain ⟨c, hc⟩ := envSetSkyColor_shape v a a2 h
    subst hc
    rfl
  · left
    intro v a a2 h
    dsimp only at h
    simp only [WorldStateManager.envSetFogEnabled, Except.ok.injEq] at h
    subst h
    rfl
  · left
    intro v a a2 h
    dsimp only at h
    obtain ⟨c, hc⟩ := envSetFogColor_shape v a a2 h
    subst hc
    rfl
  · left
    intro v a a2 h
    dsimp only at h
    simp only [WorldStateManager.envSetFogNear, Except.ok.injEq] at h
    subst h
    rfl
  · left
    intro v a a2 h
    dsimp only at h
    simp only [WorldStateManager.envSetFogFar, Except.ok.injEq] at h
    subst h
    rfl
  · left
    intro v a a2 h
    dsimp only at h
    obtain ⟨c, hc⟩ := envSetAmbientLightColor_shape v a a2 h
    subst hc
    rfl
  · left
    intro v a a2 h
    dsimp only at h
    simp only [WorldStateManager.envSetAmbientLightIntensity, Except.ok.injEq] at h
    subst h
    rfl
  · left
    intro v a a2 h
    dsimp only at h
    obtain ⟨c, hc⟩ := envSetSunColor_shape v a a2 h
    subst hc
    rfl
  · left
    intro v a a2 h
    dsimp only at h
    simp only [WorldStateManager.envSetSunIntensity, Except.ok.injEq] at h
    subst h
    rfl
  · left
    intro v a a2 h
    dsimp only at h
    obtain ⟨c, hc⟩ := envSetSunPosition_shape v a a2 h
    subst hc
    rfl
  · exact Or.inr hg

/-- Application by update_environment of a present fog enabled value,
assigned raw (null included). -/
theorem env_applies_fog_enabled (data : JVal) (e : EnvironmentSettings) (v : JVal)
    (hv : WorldStateManager.envGuard data "fog_enabled" = some v)
    (hok : (WorldStateManager.envSteps data e).2 = none) :
    (WorldStateManager.envSteps data e).1.fog_enabled = v := by
  unfold WorldStateManager.envSteps at hok ⊢
  rw [show WorldStateManager.envStepList =
      [("sky_color", WorldStateManager.envSetSkyColor)] ++
      ("fog_enabled", WorldStateManager.envSetFogEnabled) ::
      [("fog_color", WorldStateManager.envSetFogColor), ("fog_near", WorldStateManager.envSetFogNear), ("fog_far", WorldStateManager.envSetFogFar), ("ambient_light_color", WorldStateManager.envSetAmbientLightColor), ("ambient_light_intensity", WorldStateManager.envSetAmbientLightIntensity), ("sun_color", WorldStateManager.envSetSunColor), ("sun_intensity", WorldStateManager.envSetSunIntensity), ("sun_position", WorldStateManager.envSetSunPosition), ("time_of_day", WorldStateManager.envSetTimeOfDay)] from rfl,
    runPatch_append] at hok ⊢
  refine runPatch_apply_head _ _ _ _ _ _ (fun x : EnvironmentSettings => x.fog_enabled) v v hv
    (fun a => ⟨{ a with fog_enabled := v }, rfl, rfl⟩) ?_ hok
  intro p hp
  simp only [List.mem_cons, List.not_mem_nil, or_false] at hp
  rcases hp with rfl | rfl | rfl | rfl | rfl | rfl | rfl | rfl | rfl
  · intro w a a2 h
    dsimp only at h
    obtain ⟨c, hc⟩ := envSetFogColor_shape w a a2 h
    subst hc
    rfl
  · intro w a a2 h
    dsimp only at h
    simp only [WorldStateManager.envSetFogNear, Except.ok.injEq] at h
    subst h
    rfl
  · intro w a a2 h
    dsimp only at h
    simp only [WorldStateManager.envSetFogFar, Except.ok.injEq] at h
    subst h
    rfl
  · intro w a a2 h
    dsimp only at h
    obtain ⟨c, hc⟩ := envSetAmbientLightColor_shape w a a2 h
    subst hc
    rfl
  · intro w a a2 h
    dsimp only at h
    simp only [WorldStateManager.envSetAmbientLightIntensity, Except.ok.injEq] at h
    subst h
    rfl
  · intro w a a2 h
    dsimp only at h
    obtain ⟨c, hc⟩ := envSetSunColor_shape w a a2 h
    subst hc
    rfl
  · intro w a a2 h
    dsimp only at h
    simp only [WorldStateManager.envSetSunIntensity, Except.ok.injEq] at h
    subst h
    rfl
  · intro w a a2 h
    dsimp only at h
    obtain ⟨c, hc⟩ := envSetSunPosition_shape w a a2 h
    subst hc
    rfl
  · intro w a a2 h
    dsimp only at h
    simp only [WorldStateManager.envSetTimeOfDay, Except.ok.injEq] at h
    subst h
    rfl

/-- Application by update_environment of a present fog near value,
assigned raw (null included). -/
theorem env_applies_fog_near (data : JVal) (e : EnvironmentSettings) (v : JVal)
    (hv : WorldStateManager.envGuard data "fog_near" = some v)
    (hok : (WorldStateManager.envSteps data e).2 = none) :
    (WorldStateManager.envSteps data e).1.fog_near = v := by
  unfold WorldStateManager.envSteps at hok ⊢
  rw [show WorldStateManager.envStepList =
      [("sky_color", WorldStateManager.envSetSkyColor), ("fog_enabled", WorldStateManager.envSetFogEnabled), ("fog_color", WorldStateManager.envSetFogColor)] ++
      ("fog_near", WorldStateManager.envSetFogNear) ::
      [("fog_far", WorldStateManager.envSetFogFar), ("ambient_light_color", WorldStateManager.envSetAmbientLightColor), ("ambient_light_intensity", WorldStateManager.envSetAmbientLightIntensity), ("sun_color", WorldStateManager.envSetSunColor), ("sun_intensity", WorldStateManager.envSetSunIntensity), ("sun_position", WorldStateManager.envSetSunPosition), ("time_of_day", WorldStateManager.envSetTimeOfDay)] from rfl,
    runPatch_append] at hok ⊢
  refine runPatch_apply_head _ _ _ _ _ _ (fun x : EnvironmentSettings => x.fog_near) v v hv
    (fun a => ⟨{ a with fog_near := v }, rfl, rfl⟩) ?_ hok
  intro p hp
  simp only [List.mem_cons, List.not_mem_nil, or_false] at hp
  rcases hp with rfl | rfl | rfl | rfl | rfl | rfl | rfl
  · intro w a a2 h
    dsimp only at h
    simp only [WorldStateManager.envSetFogFar, Except.ok.injEq] at h
    subst h
    rfl
  · intro w a a2 h
    dsimp only at h
    obtain ⟨c, hc⟩ := envSetAmbientLightColor_shape w a a2 h
    subst hc
    rfl
  · intro w a a2 h
    dsimp only at h
    simp only [WorldStateManager.envSetAmbientLightIntensity, Except.ok.injEq] at h
    subst h
    rfl
  · intro w a a2 h
    dsimp only at h
    obtain ⟨c, hc⟩ := envSetSunColor_shape w a a2 h
    subst hc
    rfl
  · intro w a a2 h
    dsimp only at h
    simp only [WorldStateManager.envSetSunIntensity, Except.ok.injEq] at h
    subst h
    rfl
  · intro w a a2 h
    dsimp only at h
    obtain ⟨c, hc⟩ := envSetSunPosition_shape w a a2 h
    subst hc
    rfl
  · intro w a a2 h
    dsimp only at h
    simp only [WorldStateManager.envSetTimeOfDay, Except.ok.injEq] at h
    subst h
    rfl

/-- Application by update_environment of a present fog far value,
assigned raw (null included). -/
theorem env_applies_fog_far (data : JVal) (e : EnvironmentSettings) (v : JVal)
    (hv : WorldStateManager.envGuard data "fog_far" = some v)
    (hok : (WorldStateManager.envSteps data e).2 = none) :
    (WorldStateManager.envSteps data e).1.fog_far = v := by
  unfold WorldStateManager.envSteps at hok ⊢
  rw [show WorldStateManager.envStepList =
      [("sky_color", WorldStateManager.envSetSkyColor), ("fog_enabled", WorldStateManager.envSetFogEnabled), ("fog_color", WorldStateManager.envSetFogColor), ("fog_near", WorldStateManager.envSetFogNear)] ++
      ("fog_far", WorldStateManager.envSetFogFar) ::
      [("ambient_light_color", WorldStateManager.envSetAmbientLightColor), ("ambient_light_intensity", WorldStateManager.envSetAmbientLightIntensity), ("sun_color", WorldStateManager.envSetSunColor), ("sun_intensity", WorldStateManager.envSetSunIntensity), ("sun_position", WorldStateManager.envSetSunPosition), ("time_of_day", WorldStateManager.envSetTimeOfDay)] from rfl,
    runPatch_append] at hok ⊢
  refine runPatch_apply_head _ _ _ _ _ _ (fun x : EnvironmentSettings => x.fog_far) v v hv
    (fun a => ⟨{ a with fog_far := v }, rfl, rfl⟩) ?_ hok
  intro p hp
  simp only [List.mem_cons, List.not_mem_nil, or_false] at hp
  rcases hp with rfl | rfl | rfl | rfl | rfl | rfl
  · intro w a a2 h
    dsimp only at h
    obtain ⟨c, hc⟩ := envSetAmbientLightColor_shape w a a2 h
    subst hc
    rfl
  · intro w a a2 h
    dsimp only at h
    simp only [WorldStateManager.envSetAmbientLightIntensity, Except.ok.injEq] at h
    subst h
    rfl
  · intro w a a2 h
    dsimp only at h
    obtain ⟨c, hc⟩ := envSetSunColor_shape w a a2 h
    subst hc
    rfl
  · intro w a a2 h
    dsimp only at h
    simp only [WorldStateManager.envSetSunIntensity, Except.ok.injEq] at h
    subst h
    rfl
  · intro w a a2 h
    dsimp only at h
    obtain ⟨c, hc⟩ := envSetSunPosition_shape w a a2 h
    subst hc
    rfl
  · intro w a a2 h
    dsimp only at h
    simp only [WorldStateManager.envSetTimeOfDay, Except.ok.injEq] at h
    subst h
    rfl

/-- Application by update_environment of a present ambient light intensity value,
assigned raw (null included). -/
theorem env_applies_ambient_light_intensity (data : JVal) (e : EnvironmentSettings) (v : JVal)
    (hv : WorldStateManager.envGuard data "ambient_light_intensity" = some v)
    (hok : (WorldStateManager.envSteps data e).2 = none) :
    (WorldStateManager.envSteps data e).1.ambient_light_intensity = v := by
  unfold WorldStateManager.envSteps at hok ⊢
  rw [show WorldStateManager.envStepList =
      [("sky_color", WorldStateManager.envSetSkyColor), ("fog_enabled", WorldStateManager.envSetFogEnabled), ("fog_color", WorldStateManager.envSetFogColor), ("fog_near", WorldStateManager.envSetFogNear), ("fog_far", WorldStateManager.envSetFogFar), ("ambient_light_color", WorldStateManager.envSetAmbientLightColor)] ++
      ("ambient_light_intensity", WorldStateManager.envSetAmbientLightIntensity) ::
      [("sun_color", WorldStateManager.envSetSunColor), ("sun_intensity", WorldStateManager.envSetSunIntensity), ("sun_position", WorldStateManager.envSetSunPosition), ("time_of_day", WorldStateManager.envSetTimeOfDay)] from rfl,
    runPatch_append] at hok ⊢
  refine runPatch_apply_head _ _ _ _ _ _ (fun x : EnvironmentSettings => x.ambient_light_intensity) v v hv
    (fun a => ⟨{ a with ambient_light_intensity := v }, rfl, rfl⟩) ?_ hok
  intro p hp
  simp only [List.mem_cons, List.not_mem_nil, or_false] at hp
  rcases hp with rfl | rfl | rfl | rfl
  · intro w a a2 h
    dsimp only at h
    obtain ⟨c, hc⟩ := envSetSunColor_shape w a a2 h
    subst hc
    rfl
  · intro w a a2 h
    dsimp only at h
    simp only [WorldStateManager.envSetSunIntensity, Except.ok.injEq] at h
    subst h
    rfl
  · intro w a a2 h
    dsimp only at h
    obtain ⟨c, hc⟩ := envSetSunPosition_shape w a a2 h
    subst hc
    rfl
  · intro w a a2 h
    dsimp only at h
    simp only [WorldStateManager.envSetTimeOfDay, Except.ok.injEq] at h
    subst h
    rfl

/-- Application by update_environment of a present sun intensity value,
assigned raw (null included). -/
theorem env_applies_sun_intensity (data : JVal) (e : EnvironmentSettings) (v : JVal)
    (hv : WorldStateManager.envGuard data "sun_intensity" = some v)
    (hok : (WorldStateManager.envSteps data e).2 = none) :
    (WorldStateManager.envSteps data e).1.sun_intensity = v := by
  unfold WorldStateManager.envSteps at hok ⊢
  rw [show WorldStateManager.envStepList =
      [("sky_color", WorldStateManager.envSetSkyColor), ("fog_enabled", WorldStateManager.envSetFogEnabled), ("fog_color", WorldStateManager.envSetFogColor), ("fog_near", WorldStateManager.envSetFogNear), ("fog_far", WorldStateManager.envSetFogFar), ("ambient_light_color", WorldStateManager.envSetAmbientLightColor), ("ambient_light_intensity", WorldStateManager.envSetAmbientLightIntensity), ("sun_color", WorldStateManager.envSetSunColor)] ++
      ("sun_intensity", WorldStateManager.envSetSunIntensity) ::
      [("sun_position", WorldStateManager.envSetSunPosition), ("time_of_day", WorldStateManager.envSetTimeOfDay)] from rfl,
    runPatch_append] at hok ⊢
  refine runPatch_apply_head _ _ _ _ _ _ (fun x : EnvironmentSettings => x.sun_intensity) v v hv
    (fun a => ⟨{ a with sun_intensity := v }, rfl, rfl⟩) ?_ hok
  intro p hp
  simp only [List.mem_cons, List.not_mem_nil, or_false] at hp
  rcases hp with rfl | rfl
  · intro w a a2 h
    dsimp only at h
    obtain ⟨c, hc⟩ := envSetSunPosition_shape w a a2 h
    subst hc
    rfl
  · intro w a a2 h
    dsimp only at h
    simp only [WorldStateManager.envSetTimeOfDay, Except.ok.injEq] at h
    subst h
    rfl

/-- Application by update_environment of a present time of day value,
assigned raw (null included). -/
theorem env_applies_time_of_day (data : JVal) (e : EnvironmentSettings) (v : JVal)
    (hv : WorldStateManager.envGuard data "time_of_day" = some v)
    (hok : (WorldStateManager.envSteps data e).2 = none) :
    (WorldStateManager.envSteps data e).1.time_of_day = v := by
  unfold WorldStateManager.envSteps at hok ⊢
  rw [show WorldStateManager.envStepList =
      [("sky_color", WorldStateManager.envSetSkyColor), ("fog_enabled", WorldStateManager.envSetFogEnabled), ("fog_color", WorldStateManager.envSetFogColor), ("fog_near", WorldStateManager.envSetFogNear), ("fog_far", WorldStateManager.envSetFogFar), ("ambient_light_color", WorldStateManager.envSetAmbientLightColor), ("ambient_light_intensity", WorldStateManager.envSetAmbientLightIntensity), ("sun_color", WorldStateManager.envSetSunColor), ("sun_intensity", WorldStateManager.envSetSunIntensity), ("sun_position", WorldStateManager.envSetSunPosition)] ++
      ("time_of_day", WorldStateManager.envSetTimeOfDay) ::
      [] from rfl,
    runPatch_append] at hok ⊢
  refine runPatch_apply_head _ _ _ _ _ _ (fun x : EnvironmentSettings => x.time_of_day) v v hv
    (fun a => ⟨{ a with time_of_day := v }, rfl, rfl⟩) ?_ hok
  intro p hp
  simp only [List.not_mem_nil] at hp

/-- A present null sky_color is not retained: it goes through the
color helper, whose falsy branch resets to the default white. -/
theorem env_sky_color_null_resets (data : JVal) (e : EnvironmentSettings)
    (hv : WorldStateManager.envGuard data "sky_color" = some JVal.null)
    (hok : (WorldStateManager.envSteps data e).2 = none) :
    (WorldStateManager.envSteps data e).1.sky_color = {} := by
  unfold WorldStateManager.envSteps at hok ⊢
  rw [show WorldStateManager.envStepList =
      ("sky_color", WorldStateManager.envSetSkyColor) ::
      [("fog_enabled", WorldStateManager.envSetFogEnabled), ("fog_color", WorldStateManager.envSetFogColor), ("fog_near", WorldStateManager.envSetFogNear), ("fog_far", WorldStateManager.envSetFogFar), ("ambient_light_color", WorldStateManager.envSetAmbientLightColor), ("ambient_light_intensity", WorldStateManager.envSetAmbientLightIntensity), ("sun_color", WorldStateManager.envSetSunColor), ("sun_intensity", WorldStateManager.envSetSunIntensity), ("sun_position", WorldStateManager.envSetSunPosition), ("time_of_day", WorldStateManager.envSetTimeOfDay)] from rfl] at hok ⊢
  refine runPatch_apply_head _ _ _ _ _ _ (fun x : EnvironmentSettings => x.sky_color)
    JVal.null {} hv (fun a => ⟨{ a with sky_color := {} }, rfl, rfl⟩) ?_ hok
  intro p hp
  simp only [List.mem_cons, List.not_mem_nil, or_false] at hp
  rcases hp with rfl | rfl | rfl | rfl | rfl | rfl | rfl | rfl | rfl | rfl
  · intro w a a2 h
    dsimp only at h
    simp only [WorldStateManager.envSetFogEnabled, Except.ok.injEq] at h
    subst h
    rfl
  · intro w a a2 h
    dsimp only at h
    obtain ⟨c, hc⟩ := envSetFogColor_shape w a a2 h
    subst hc
    rfl
  · intro w a a2 h
    dsimp only at h
    simp only [WorldStateManager.envSetFogNear, Except.ok.injEq] at h
    subst h
    rfl
  · intro w a a2 h
    dsimp only at h
    simp only [WorldStateManager.envSetFogFar, Except.ok.injEq] at h
    subst h
    rfl
  · intro w a a2 h
    dsimp only at h
    obtain ⟨c, hc⟩ := envSetAmbientLightColor_shape w a a2 h
    subst hc
    rfl
  · intro w a a2 h
    dsimp only at h
    simp only [WorldStateManager.envSetAmbientLightIntensity, Except.ok.injEq] at h
    subst h
    rfl
  · intro w a a2 h
    dsimp only at h
    obtain ⟨c, hc⟩ := envSetSunColor_shape w a a2 h
    subst hc
    rfl
  · intro w a a2 h
    dsimp only at h
    simp only [WorldStateManager.envSetSunIntensity, Except.ok.injEq] at h
    subst h
    rfl
  · intro w a a2 h
    dsimp only at h
    obtain ⟨c, hc⟩ := envSetSunPosition_shape w a a2 h
    subst hc
    rfl
  · intro w a a2 h
    dsimp only at h
    simp only [WorldStateManager.envSetTimeOfDay, Except.ok.injEq] at h
    subst h
    rfl

/-- A successful update_environment call is exactly the env-step chain
running without a pending exception. -/
theorem update_environment_ok (data : JVal) (st : WorldState)
    (env2 : EnvironmentSettings) (st2 : WorldState)
    (h : WorldStateManager.update_environment data st = (.ok env2, st2)) :
    WorldStateManager.envSteps data st.environment = (env2, none) := by
  unfold WorldStateManager.update_environment at h
  rcases he : WorldStateManager.envSteps data st.environment with ⟨e2, ex⟩
  rw [he] at h
  cases ex with
  | none =>
    simp only [Prod.mk.injEq, Except.ok.injEq] at h
    rw [h.1]
  | some e => simp at h

/-- A successful, found modify_object call is exactly the field-update
chain on the stored object, running without a pending exception. -/
theorem modify_object_ok (data : JVal) (st : WorldState)
    (o2 : WorldObject) (st2 : WorldState)
    (h : WorldStateManager.modify_object data st = (.ok (some o2), st2)) :
    ∃ k o0, WorldStateManager.modKey data = some k ∧
      PyDict.get st.objects k = some o0 ∧
      WorldStateManager.modifySteps data o0 = (o2, none) := by
  unfold WorldStateManager.modify_object at h
  cases hk : WorldStateManager.modKey data with
  | none => simp only [hk] at h; simp at h
  | some k =>
    simp only [hk] at h
    cases hg : PyDict.get st.objects k with
    | none => simp only [hg] at h; simp at h
    | some o0 =>
      simp only [hg] at h
      rcases hm : WorldStateManager.modifySteps data o0 with ⟨o1, ex⟩
      simp only [hm] at h
      cases ex with
      | none =>
        simp only [Prod.mk.injEq, Except.ok.injEq, Option.some.injEq] at h
        exact ⟨k, o0, rfl, hg, by rw [hm, h.1]⟩
      | some e => simp at h

/-- The modify_object guard skips a field that is absent from the patch
or present with a null value (null is falsy). -/
theorem modGuard_none_of_absent_or_null (data : JVal) (k : String)
    (h : data.lookup k = none ∨ data.lookup k = some JVal.null) :
    WorldStateManager.modGuard data k = none := by
  unfold WorldStateManager.modGuard
  rcases h with h | h
  · rw [h]
  · rw [h]
    rfl

/-- C8 counterexample: update_environment's patch semantics are not
identical to modify_object's — a present null value is applied, not
retained. time_of_day is overwritten with null although its pre-state
value is the non-null default, while the same null under modify_object
leaves the stored position untouched. -/
theorem environment_null_overwrites :
    (WorldStateManager.update_environment (.obj [("time_of_day", JVal.null)])
        {}).2.environment.time_of_day = JVal.null ∧
    ({} : WorldState).environment.time_of_day = .str "day" ∧
    (WorldStateManager.modify_object
        (.obj [("name", .str "a"), ("position", JVal.null)])
        { objects := [("a", { name := "a", position := { x := 7 }, children := [] })] }
      ).1 = .ok (some { name := "a", position := { x := 7 }, children := [] }) :=
  ⟨rfl, rfl, rfl⟩

/-- C8: for a successful modify_object on an existing object, every field
absent from the patch, or present with a null value, retains the stored
object's value (present-and-truthy guards); for a successful
update_environment, absent keys retain the existing value, but the
semantics are not identical to modify_object's: a present key is always
applied, null included — raw scalars take the null itself, and a null
sky_color resets to the parse default — so only absence, not null,
protects an environment field. -/
theorem sparse_patch_semantics (data : JVal) (st : WorldState)
    (o2 : WorldObject) (st2 : WorldState) (env2 : EnvironmentSettings)
    (st3 : WorldState)
    (hm : WorldStateManager.modify_object data st = (.ok (some o2), st2))
    (he : WorldStateManager.update_environment data st = (.ok env2, st3)) :
    (∃ k o0, WorldStateManager.modKey data = some k ∧
      PyDict.get st.objects k = some o0 ∧
      ((data.lookup "position" = none ∨ data.lookup "position" = some JVal.null →
          o2.position = o0.position) ∧
       (data.lookup "rotation" = none ∨ data.lookup "rotation" = some JVal.null →
          o2.rotation = o0.rotation) ∧
       (data.lookup "scale" = none ∨ data.lookup "scale" = some JVal.null →
          o2.scale = o0.scale) ∧
       (data.lookup "material" = none ∨ data.lookup "material" = some JVal.null →
          o2.material = o0.material) ∧
       (data.lookup "animation" = none ∨ data.lookup "animation" = some JVal.null →
          o2.animation = o0.animation))) ∧
    ((data.lookup "sky_color" = none →
        env2.sky_color = st.environment.sky_color) ∧
     (data.lookup "fog_enabled" = none →
        env2.fog_enabled = st.environment.fog_enabled) ∧
     (data.lookup "fog_color" = none →
        env2.fog_color = st.environment.fog_color) ∧
     (data.lookup "fog_near" = none →
        env2.fog_near = st.environment.fog_near) ∧
     (data.lookup "fog_far" = none →
        env2.fog_far = st.environment.fog_far) ∧
     (data.lookup "ambient_light_color" = none →
        env2.ambient_light_color = st.environment.ambient_light_color) ∧
     (data.lookup "ambient_light_intensity" = none →
        env2.ambient_light_intensity = st.environment.ambient_light_intensity) ∧
     (data.lookup "sun_color" = none →
        env2.sun_color = st.environment.sun_color) ∧
     (data.lookup "sun_intensity" = none →
        env2.sun_intensity = st.environment.sun_intensity) ∧
     (data.lookup "sun_position" = none →
        env2.sun_position = st.environment.sun_position) ∧
     (data.lookup "time_of_day" = none →
        env2.time_of_day = st.environment.time_of_day)) ∧
    ((∀ v, data.lookup "fog_enabled" = some v → env2.fog_enabled = v) ∧
     (∀ v, data.lookup "fog_near" = some v → env2.fog_near = v) ∧
     (∀ v, data.lookup "fog_far" = some v → env2.fog_far = v) ∧
     (∀ v, data.lookup "ambient_light_intensity" = some v →
        env2.ambient_light_intensity = v) ∧
     (∀ v, data.lookup "sun_intensity" = some v → env2.sun_intensity = v) ∧
     (∀ v, data.lookup "time_of_day" = some v → env2.time_of_day = v) ∧
     (data.lookup "sky_color" = some JVal.null → env2.sky_color = {})) := by
  obtain ⟨k, o0, hk, hko, hms⟩ := modify_object_ok data st o2 st2 hm
  have ho2 : (WorldStateManager.modifySteps data o0).1 = o2 := by rw [hms]
  have hes := update_environment_ok data st env2 st3 he
  have he2 : (WorldStateManager.envSteps data st.environment).1 = env2 := by
    rw [hes]
  have hok : (WorldStateManager.envSteps data st.environment).2 = none := by
    rw [hes]
  refine ⟨⟨k, o0, hk, hko, ?_, ?_, ?_, ?_, ?_⟩,
    ⟨?_, ?_, ?_, ?_, ?_, ?_, ?_, ?_, ?_, ?_, ?_⟩,
    ?_, ?_, ?_, ?_, ?_, ?_, ?_⟩
  · intro h
    rw [← ho2]
    exact mod_keeps_position data o0 (modGuard_none_of_absent_or_null data _ h)
  · intro h
    rw [← ho2]
    exact mod_keeps_rotation data o0 (modGuard_none_of_absent_or_null data _ h)
  · intro h
    rw [← ho2]
    exact mod_keeps_scale data o0 (modGuard_none_of_absent_or_null data _ h)
  · intro h
    rw [← ho2]
    exact mod_keeps_material data o0 (modGuard_none_of_absent_or_null data _ h)
  · intro h
    rw [← ho2]
    exact mod_keeps_animation data o0 (modGuard_none_of_absent_or_null data _ h)
  · intro h
    rw [← he2]
    exact env_keeps_sky_color data st.environment h
  · intro h
    rw [← he2]
    exact env_keeps_fog_enabled data st.environment h
  · intro h
    rw [← he2]
    exact env_keeps_fog_color data st.environment h
  · intro h
    rw [← he2]
    exact env_keeps_fog_near data st.environment h
  · intro h
    rw [← he2]
    exact env_keeps_fog_far data st.environment h
  · intro h
    rw [← he2]
    exact env_keeps_ambient_light_color data st.environment h
  · intro h
    rw [← he2]
    exact env_keeps_ambient_light_intensity data st.environment h
  · intro h
    rw [← he2]
    exact env_keeps_sun_color data st.environment h
  · intro h
    rw [← he2]
    exact env_keeps_sun_intensity data st.environment h
  · intro h
    rw [← he2]
    exact env_keeps_sun_position data st.environment h
  · intro h
    rw [← he2]
    exact env_keeps_time_of_day data st.environment h
  · intro v hv
    rw [← he2]
    exact env_applies_fog_enabled data st.environment v hv hok
  · intro v hv
    rw [← he2]
    exact env_applies_fog_near data st.environment v hv hok
  · intro v hv
    rw [← he2]
    exact env_applies_fog_far data st.environment v hv hok
  · intro v hv
    rw [← he2]
    exact env_applies_ambient_light_intensity data st.environment v hv hok
  · intro v hv
    rw [← he2]
    exact env_applies_sun_intensity data st.environment v hv hok
  · intro v hv
    rw [← he2]
    exact env_applies_time_of_day data st.environment v hv hok
  · intro hv
    rw [← he2]
    exact env_sky_color_null_resets data st.environment hv hok

/-- C8 witness: the sparse-patch theorem applied to a concrete patch that
names an existing object and sets one environment scalar. -/
theorem sparse_patch_semantics_witness :
    WorldStateManager.modify_object c8data c8st = (.ok (some c8obj0), c8st) ∧
    WorldStateManager.update_environment c8data c8st = (.ok c8env2, c8st3) ∧
    c8env2.time_of_day = c8st.environment.time_of_day ∧
    c8env2.fog_near = JVal.num 5 := by
  have h := sparse_patch_semantics c8data c8st c8obj0 c8st c8env2 c8st3 rfl rfl
  obtain ⟨-, henv, happ⟩ := h
  exact ⟨rfl, rfl, henv.2.2.2.2.2.2.2.2.2.2 rfl, happ.2.1 (.num 5) rfl⟩

/-! Claim C10. -/

/-- The tool-result phrasing always opens with Success. -/
theorem toolResultContent_success (a : WorldAction) :
    ∃ rest, LLMService.toolResultContent a = "Success: " ++ rest :=
  ⟨a.type ++ (" - " ++ (a.name.getD (.str "")).pyRepr), by
    unfold LLMService.toolResultContent
    rw [String.append_assoc, String.append_assoc]⟩

/-- C10: every tool-result entry the dispatch loop appends to the
conversation history has content of the form Success-colon prefix —
including when the dispatched Action is an error, whose entry reads
Success: error - ..., so the agent is never shown a failure-marked tool
result. -/
theorem tool_results_always_marked_success :
    (∀ (o : Oracle) tcs acc (s : LLMService.LLMState) id c,
      ChatMsg.tool id c ∈ (LLMService.execToolCalls o tcs acc s).2.conversation_history →
      ChatMsg.tool id c ∈ s.conversation_history ∨
        ∃ rest, c = "Success: " ++ rest) ∧
    (∀ a : WorldAction, a.type = "error" →
      ∃ rest, LLMService.toolResultContent a = "Success: error - " ++ rest) := by
  constructor
  · intro o tcs
    induction tcs with
    | nil =>
      intro acc s id c h
      exact Or.inl (by simpa [LLMService.execToolCalls] using h)
    | cons tc rest ih =>
      intro acc s id c h
      rw [LLMService.execToolCalls] at h
      revert h
      split
      · intro h
        exact Or.inl h
      · rename_i a w2 heq
        intro h
        rcases ih (acc ++ [a])
          ⟨w2, s.conversation_history ++
            [ChatMsg.tool tc.id (LLMService.toolResultContent a)], s.cost_tracker⟩
          id c h with hmem | hsucc
        · rcases List.mem_append.mp hmem with h1 | h2
          · exact Or.inl h1
          · right
            have h3 : ChatMsg.tool id c =
                ChatMsg.tool tc.id (LLMService.toolResultContent a) := by
              simpa using h2
            have h4 : c = LLMService.toolResultContent a := by
              cases h3
              rfl
            rw [h4]
            exact toolResultContent_success a
        · exact Or.inr hsucc
  · intro a ha
    refine ⟨(a.name.getD (.str "")).pyRepr, ?_⟩
    unfold LLMService.toolResultContent
    rw [ha]
    rw [show ("Success: " ++ "error" ++ " - " : String) = "Success: error - " from rfl]

/-- C10 witness: the narrate round's tool entry reads
Success: narration - and is recognized by the theorem. -/
theorem tool_results_always_marked_success_witness :
    ChatMsg.tool "c2" "Success: narration - " ∈ c10run.2.conversation_history ∧
    (ChatMsg.tool "c2" "Success: narration - " ∈ emptyLLM.conversation_history ∨
      ∃ rest, "Success: narration - " = "Success: " ++ rest) :=
  ⟨by
    rw [show c10run.2.conversation_history =
      [ChatMsg.tool "c2" "Success: narration - "] from rfl]
    exact List.mem_singleton.mpr rfl,
   tool_results_always_marked_success.1 fixedOracle [narrTc] [] emptyLLM
     "c2" "Success: narration - "
     (by
       rw [show (LLMService.execToolCalls fixedOracle [narrTc] []
         emptyLLM).2.conversation_history =
         [ChatMsg.tool "c2" "Success: narration - "] from rfl]
       exact List.mem_singleton.mpr rfl)⟩
